import Mathlib

/-!
# Verification of the Claims-Description-Normalizer pipeline

A shallow embedding of `normalizer.py` and `schema.py`: Python text is
modelled as `List Char`, `json.loads` as an executable recursive-descent
parser over a JSON value type, the pydantic `ClaimAttributes` model as a
structure together with a validating constructor, and the text-generation
oracle as an explicit function parameter `gen : List Char → List Char`
(prompt to completion).  Fallible Python code (attribute errors, pydantic
validation errors) is modelled with `Except Unit`.

Modelling boundaries, noted where they matter: case mapping is ASCII (all
keywords and enum constants in the source are ASCII); JSON numbers are
modelled as integers (the oracle prompts only request string fields, and
no claim depends on fractional numbers); `\uXXXX` escapes denoting lone
surrogates are rejected by the model parser (Lean `Char` holds only
scalar values).
-/

/-- Convert a Lean string literal to the `List Char` text representation. -/
def str2l (s : String) : List Char := s.data

/-- Python `str.strip()` whitespace set, ASCII fragment:
space, tab, newline, carriage return, vertical tab, form feed. -/
def pyWs (c : Char) : Bool :=
  c = ' ' || c = '\t' || c = '\n' || c = '\r' || c = '\x0b' || c = '\x0c'

/-- Python `str.strip()`: drop leading and trailing whitespace. -/
def pyStrip (s : List Char) : List Char :=
  ((s.dropWhile pyWs).reverse.dropWhile pyWs).reverse

/-- Python `str.strip(chars)` for a single stripped character. -/
def pyStripChar (t : Char) (s : List Char) : List Char :=
  ((s.dropWhile (· = t)).reverse.dropWhile (· = t)).reverse

/-- ASCII lower-casing of one character (Python `str.lower`, ASCII fragment). -/
def pyLowerChar (c : Char) : Char :=
  if 'A' ≤ c ∧ c ≤ 'Z' then Char.ofNat (c.toNat + 32) else c

/-- ASCII upper-casing of one character (Python `str.upper`, ASCII fragment). -/
def pyUpperChar (c : Char) : Char :=
  if 'a' ≤ c ∧ c ≤ 'z' then Char.ofNat (c.toNat - 32) else c

/-- Python `str.lower()` (ASCII fragment). -/
def pyLower (s : List Char) : List Char := s.map pyLowerChar

/-- Python `str.upper()` (ASCII fragment). -/
def pyUpper (s : List Char) : List Char := s.map pyUpperChar

/-- Python substring membership `needle in hay`. -/
def containsSub (needle : List Char) : List Char → Bool
  | [] => needle.isEmpty
  | c :: rest => needle.isPrefixOf (c :: rest) || containsSub needle rest

/-- `any(k in t for k in kws)`. -/
def anyKeyword (kws : List (List Char)) (t : List Char) : Bool :=
  kws.any (fun k => containsSub k t)

/-- Python `str.find(c)` restricted to single characters: index of the first
occurrence, `none` standing for `-1`. -/
def findChar : List Char → Char → Option Nat
  | [], _ => none
  | a :: r, c => if a = c then some 0 else (findChar r c).map (· + 1)

/-- Python `str.rfind(c)`: index of the last occurrence, `none` for `-1`. -/
def rfindChar (s : List Char) (c : Char) : Option Nat :=
  (findChar s.reverse c).map (fun i => s.length - 1 - i)

/-! ## JSON values

The value type mirrors what `json.loads` can produce from the fragment the
pipeline exercises.  Objects are association lists in textual order;
lookup (`jget`) takes the last binding of a repeated key, exactly as a
Python `dict` built by the stdlib decoder does. -/

mutual
inductive JVal where
  | jstr : List Char → JVal
  | jint : Int → JVal
  | jbool : Bool → JVal
  | jnull : JVal
  | jarr : JArr → JVal
  | jobj : JObj → JVal

inductive JArr where
  | nil : JArr
  | cons : JVal → JArr → JArr

inductive JObj where
  | nil : JObj
  | cons : List Char → JVal → JObj → JObj
end

deriving instance DecidableEq for JVal
deriving instance DecidableEq for JArr
deriving instance DecidableEq for JObj

/-- Python `dict.get` on a decoded object: the last binding wins, as in a
`dict` built key-by-key from the textual order. -/
def jget : JObj → List Char → Option JVal
  | .nil, _ => none
  | .cons k v t, key =>
    match jget t key with
    | some w => some w
    | none => if k = key then some v else none

/-- Python truthiness of a decoded JSON value. -/
def truthy : JVal → Bool
  | .jstr s => !s.isEmpty
  | .jint n => !(n = 0)
  | .jbool b => b
  | .jnull => false
  | .jarr .nil => false
  | .jarr (.cons _ _) => true
  | .jobj .nil => false
  | .jobj (.cons _ _ _) => true

/-! ## The decoder (`json.loads`)

JSON token whitespace is space, tab, newline, carriage return — note this
is narrower than Python's `str.strip` set. -/

def jsonWs (c : Char) : Bool := c = ' ' || c = '\t' || c = '\n' || c = '\r'

def skipWs : List Char → List Char
  | [] => []
  | c :: r => if jsonWs c then skipWs r else c :: r

def isDigitCh (c : Char) : Bool := 48 ≤ c.toNat && c.toNat ≤ 57

def hexVal (c : Char) : Option Nat :=
  if '0' ≤ c ∧ c ≤ '9' then some (c.toNat - 48)
  else if 'a' ≤ c ∧ c ≤ 'f' then some (c.toNat - 87)
  else if 'A' ≤ c ∧ c ≤ 'F' then some (c.toNat - 55)
  else none

def hex4 (h1 h2 h3 h4 : Char) : Option Nat :=
  match hexVal h1, hexVal h2, hexVal h3, hexVal h4 with
  | some a, some b, some c, some d => some (a * 4096 + b * 256 + c * 16 + d)
  | _, _, _, _ => none

/-- The plain escape characters of a JSON string. -/
def unescSimple (e : Char) : Option Char :=
  if e = '"' then some '"'
  else if e = '\\' then some '\\'
  else if e = '/' then some '/'
  else if e = 'b' then some '\x08'
  else if e = 'f' then some '\x0c'
  else if e = 'n' then some '\n'
  else if e = 'r' then some '\r'
  else if e = 't' then some '\t'
  else none

/-- Decode one escape sequence (the input starts just after the backslash):
the decoded character and the remaining input.  `\uXXXX` escapes decode
scalar values, with surrogate pairs combined. -/
def escStep : List Char → Option (Char × List Char)
  | [] => none
  | e :: r2 =>
    if e = 'u' then
      match r2 with
      | h1 :: h2 :: h3 :: h4 :: r3 =>
        match hex4 h1 h2 h3 h4 with
        | none => none
        | some n =>
          if n < 0xD800 ∨ 0xDFFF < n then some (Char.ofNat n, r3)
          else if n ≤ 0xDBFF then
            match r3 with
            | b1 :: b2 :: g1 :: g2 :: g3 :: g4 :: r4 =>
              if b1 = '\\' ∧ b2 = 'u' then
                match hex4 g1 g2 g3 g4 with
                | some m =>
                  if 0xDC00 ≤ m ∧ m ≤ 0xDFFF then
                    some (Char.ofNat (0x10000 + (n - 0xD800) * 0x400 + (m - 0xDC00)), r4)
                  else none
                | none => none
              else none
            | _ => none
          else none
      | _ => none
    else
      match unescSimple e with
      | some ch => some (ch, r2)
      | none => none

/-- Decode the body of a JSON string after the opening quote: the decoded
characters and the input after the closing quote.  Raw control characters
are rejected (`json.loads` default `strict=True`).  Fueled (one unit per
decoded character; every step consumes at least one input character). -/
def parseStringBody : Nat → List Char → Option (List Char × List Char)
  | 0, _ => none
  | Nat.succ _, [] => none
  | Nat.succ fuel, c :: r =>
    if c = '"' then some ([], r)
    else if c = '\\' then
      match escStep r with
      | some (ch, r2) => (parseStringBody fuel r2).map (fun p => (ch :: p.1, p.2))
      | none => none
    else if c.toNat < 32 then none
    else (parseStringBody fuel r).map (fun p => (c :: p.1, p.2))

/-- Scan a run of decimal digits, accumulating the value. -/
def takeDigitsAcc (acc : Nat) : List Char → Nat × List Char
  | [] => (acc, [])
  | c :: r => if isDigitCh c then takeDigitsAcc (acc * 10 + (c.toNat - 48)) r else (acc, c :: r)

/-- Decode an unsigned JSON integer: `0` is a full number by itself (the
decoder's number regex never lets a leading zero start a longer integer). -/
def parseNat0 : List Char → Option (Nat × List Char)
  | [] => none
  | c :: r =>
    if c = '0' then some (0, r)
    else if isDigitCh c then some (takeDigitsAcc (c.toNat - 48) r)
    else none

/-- Parsing modes of the single fueled decoder function. -/
inductive PMode where
  | val : PMode
  | members : PMode
  | items : PMode

/-- The recursive-descent core of `json.loads`, structural in an explicit
fuel argument (each recursive call consumes at least one input character,
so fuel `length + 1` never runs out on accepted input).  Mode `members`
decodes one-or-more object members up to the closing brace and yields the
object; mode `items` likewise for array items. -/
def parseF : Nat → PMode → List Char → Option (JVal × List Char)
  | 0, _, _ => none
  | Nat.succ fuel, .val, s =>
    match skipWs s with
    | [] => none
    | c :: r =>
      if c = '\x7b' then
        match skipWs r with
        | [] => none
        | c2 :: r2 =>
          if c2 = '\x7d' then some (.jobj .nil, r2)
          else
            match parseF fuel .members r with
            | some (m, r3) => some (m, r3)
            | none => none
      else if c = '[' then
        match skipWs r with
        | [] => none
        | c2 :: r2 =>
          if c2 = ']' then some (.jarr .nil, r2)
          else
            match parseF fuel .items r with
            | some (a, r3) => some (a, r3)
            | none => none
      else if c = '"' then
        match parseStringBody fuel r with
        | some (str, r2) => some (.jstr str, r2)
        | none => none
      else if c = 't' then
        match r with
        | a :: b :: d :: r2 =>
          if a = 'r' ∧ b = 'u' ∧ d = 'e' then some (.jbool true, r2) else none
        | _ => none
      else if c = 'f' then
        match r with
        | a :: b :: d :: e2 :: r2 =>
          if a = 'a' ∧ b = 'l' ∧ d = 's' ∧ e2 = 'e' then some (.jbool false, r2) else none
        | _ => none
      else if c = 'n' then
        match r with
        | a :: b :: d :: r2 =>
          if a = 'u' ∧ b = 'l' ∧ d = 'l' then some (.jnull, r2) else none
        | _ => none
      else if c = '-' then
        match parseNat0 r with
        | some (n, r2) => some (.jint (-(n : Int)), r2)
        | none => none
      else if isDigitCh c then
        match parseNat0 (c :: r) with
        | some (n, r2) => some (.jint (n : Int), r2)
        | none => none
      else none
  | Nat.succ fuel, .members, s =>
    match skipWs s with
    | [] => none
    | c :: r =>
      if c = '"' then
        match parseStringBody fuel r with
        | none => none
        | some (k, r2) =>
          match skipWs r2 with
          | [] => none
          | c2 :: r3 =>
            if c2 = ':' then
              match parseF fuel .val r3 with
              | none => none
              | some (v, r4) =>
                match skipWs r4 with
                | [] => none
                | c3 :: r5 =>
                  if c3 = ',' then
                    match parseF fuel .members r5 with
                    | some (.jobj m, r6) => some (.jobj (.cons k v m), r6)
                    | _ => none
                  else if c3 = '\x7d' then some (.jobj (.cons k v .nil), r5)
                  else none
            else none
      else none
  | Nat.succ fuel, .items, s =>
    match parseF fuel .val s with
    | none => none
    | some (v, r) =>
      match skipWs r with
      | [] => none
      | c :: r2 =>
        if c = ',' then
          match parseF fuel .items r2 with
          | some (.jarr a, r3) => some (.jarr (.cons v a), r3)
          | _ => none
        else if c = ']' then some (.jarr (.cons v .nil), r2)
        else none

/-- `json.loads`: decode one value and require only trailing whitespace
after it ("Extra data" is an error). -/
def jsonLoads (s : List Char) : Option JVal :=
  match parseF (s.length + 1) .val s with
  | some (v, rest) => if skipWs rest = [] then some v else none
  | none => none

/-! ## The encoder (used to state the round-trip property)

A canonical serialization: minimal escapes plus `\u00XX` for the remaining
control characters, integers in decimal, no inter-token spacing. -/

def digitChar : Nat → Char
  | 0 => '0' | 1 => '1' | 2 => '2' | 3 => '3' | 4 => '4'
  | 5 => '5' | 6 => '6' | 7 => '7' | 8 => '8' | _ => '9'

def hexDigit : Nat → Char
  | 0 => '0' | 1 => '1' | 2 => '2' | 3 => '3' | 4 => '4'
  | 5 => '5' | 6 => '6' | 7 => '7' | 8 => '8' | 9 => '9'
  | 10 => 'a' | 11 => 'b' | 12 => 'c' | 13 => 'd' | 14 => 'e' | _ => 'f'

/-- Decimal digits of a natural number, most significant first; fueled so
that the definition is structural and computes by reduction. -/
def natDigitsF : Nat → Nat → List Char
  | 0, _ => []
  | Nat.succ f, n =>
    if n < 10 then [digitChar n] else natDigitsF f (n / 10) ++ [digitChar (n % 10)]

def natDigits (n : Nat) : List Char := natDigitsF (n + 1) n

def serInt (i : Int) : List Char :=
  if i < 0 then '-' :: natDigits i.natAbs else natDigits i.natAbs

def escChar (c : Char) : List Char :=
  if c = '"' then ['\\', '"']
  else if c = '\\' then ['\\', '\\']
  else if c = '\n' then ['\\', 'n']
  else if c = '\t' then ['\\', 't']
  else if c = '\r' then ['\\', 'r']
  else if c = '\x08' then ['\\', 'b']
  else if c = '\x0c' then ['\\', 'f']
  else if c.toNat < 32 then ['\\', 'u', '0', '0', hexDigit (c.toNat / 16), hexDigit (c.toNat % 16)]
  else [c]

def escString (s : List Char) : List Char := s.foldr (fun c acc => escChar c ++ acc) []

def serStr (s : List Char) : List Char := '"' :: escString s ++ ['"']

mutual
def serVal : JVal → List Char
  | .jstr s => serStr s
  | .jint i => serInt i
  | .jbool true => str2l "true"
  | .jbool false => str2l "false"
  | .jnull => str2l "null"
  | .jarr .nil => str2l "[]"
  | .jarr (.cons v t) => '[' :: serVal v ++ serArrTail t
  | .jobj .nil => str2l "\x7b\x7d"
  | .jobj (.cons k v t) => '\x7b' :: serStr k ++ ':' :: serVal v ++ serObjTail t

def serArrTail : JArr → List Char
  | .nil => [']']
  | .cons v t => ',' :: serVal v ++ serArrTail t

def serObjTail : JObj → List Char
  | .nil => ['\x7d']
  | .cons k v t => ',' :: serStr k ++ ':' :: serVal v ++ serObjTail t
end

/-! ## Python `str()` rendering (used only by the sentinel explanation)

`str` of a decoded JSON value: identity on strings, decimal on ints,
`True`/`False`/`None` on the constants, and `repr` on containers (Python
renders list/dict elements with `repr`, single-quoting strings unless the
string contains a single quote and no double quote). -/

def reprEscChar (q : Char) (c : Char) : List Char :=
  if c = '\\' then ['\\', '\\']
  else if c = q then ['\\', q]
  else if c = '\n' then ['\\', 'n']
  else if c = '\r' then ['\\', 'r']
  else if c = '\t' then ['\\', 't']
  else if c.toNat < 32 then ['\\', 'x', hexDigit (c.toNat / 16), hexDigit (c.toNat % 16)]
  else [c]

def pyReprStr (s : List Char) : List Char :=
  let q : Char := if s.contains '\x27' ∧ ¬ s.contains '"' then '"' else '\x27'
  q :: s.foldr (fun c acc => reprEscChar q c ++ acc) [q]

mutual
def pyRepr : JVal → List Char
  | .jstr s => pyReprStr s
  | .jint i => serInt i
  | .jbool true => str2l "True"
  | .jbool false => str2l "False"
  | .jnull => str2l "None"
  | .jarr .nil => str2l "[]"
  | .jarr (.cons v t) => '[' :: pyRepr v ++ pyReprArrTail t
  | .jobj .nil => str2l "\x7b\x7d"
  | .jobj (.cons k v t) => '\x7b' :: pyReprStr k ++ ':' :: ' ' :: pyRepr v ++ pyReprObjTail t

def pyReprArrTail : JArr → List Char
  | .nil => [']']
  | .cons v t => ',' :: ' ' :: pyRepr v ++ pyReprArrTail t

def pyReprObjTail : JObj → List Char
  | .nil => ['\x7d']
  | .cons k v t => ',' :: ' ' :: pyReprStr k ++ ':' :: ' ' :: pyRepr v ++ pyReprObjTail t
end

def pyStr : JVal → List Char
  | .jstr s => s
  | v => pyRepr v

/-! ## `normalizer.py`: constants and keyword heuristics -/

def MAX_DOC_CHARS : Nat := 4000

def DOC_CLAIM_KEYWORDS : List (List Char) :=
  [str2l "insurance claim", str2l "claim report", str2l "claim form", str2l "incident report",
   str2l "loss report", str2l "intimate claim", str2l "intimation",
   str2l "motor accident", str2l "road accident", str2l "collision", str2l "rear-end",
   str2l "vehicle damage",
   str2l "bumper damaged", str2l "bumper damage", str2l "headlamp broken", str2l "traffic signal",
   str2l "hospitalization", str2l "hospitalisation", str2l "admitted", str2l "discharge summary",
   str2l "surgery", str2l "operation", str2l "inpatient", str2l "medical expenses",
   str2l "reimbursement claim", str2l "cashless claim", str2l "treatment details",
   str2l "fire incident", str2l "fire broke out", str2l "short circuit", str2l "burnt",
   str2l "smoke damage",
   str2l "kitchen fire", str2l "house burglary", str2l "break-in", str2l "burglary occurred",
   str2l "stolen items",
   str2l "property damage", str2l "wall damage", str2l "ceiling damage", str2l "water leakage",
   str2l "burst pipe", str2l "flood water", str2l "urban flood", str2l "inundation",
   str2l "waterlogging",
   str2l "baggage loss", str2l "lost baggage", str2l "missing baggage", str2l "checked-in baggage",
   str2l "baggage not delivered", str2l "baggage mishandling", str2l "property irregularity report",
   str2l "pir report", str2l "airport", str2l "flight", str2l "airline acknowledged"]

def DOC_POLICY_KEYWORDS : List (List Char) :=
  [str2l "terms and conditions", str2l "coverage details", str2l "scope of cover",
   str2l "exclusions",
   str2l "premium payable", str2l "sum insured", str2l "policy wording",
   str2l "this policy document",
   str2l "renewal notice", str2l "endorsement", str2l "schedule of benefits"]

def DOC_NONCLAIM_LETTER_KEYWORDS : List (List Char) :=
  [str2l "claim rejected", str2l "rejection letter", str2l "deficiency of documents",
   str2l "mismatch in documents", str2l "kindly submit", str2l "required documents",
   str2l "discrepancy in submitted documents"]

/-- `_looks_like_claim`: fast keyword-based check on the lower-cased text. -/
def _looks_like_claim (text : List Char) : Bool :=
  anyKeyword
    [str2l "accident", str2l "damage", str2l "damaged", str2l "fire", str2l "burnt",
     str2l "burned", str2l "theft", str2l "stolen", str2l "burglary", str2l "collision",
     str2l "leakage", str2l "leak", str2l "flood", str2l "storm", str2l "hail",
     str2l "crack", str2l "broken", str2l "dent", str2l "injury", str2l "injuries",
     str2l "claim", str2l "insurance"]
    (pyLower text)

/-! ## `normalizer.py`: JSON helpers -/

/-- The fence-stripping stage of `_extract_json_segment`: `txt = raw.strip()`;
if it starts with three backticks, strip all leading/trailing backticks and,
when the remainder lower-cases to a `json` tag, drop the four tag characters
and strip again. -/
def fenceStrip (raw_text : List Char) : List Char :=
  let txt := pyStrip raw_text
  if (str2l "```").isPrefixOf txt then
    let t2 := pyStripChar '\x60' txt
    if (str2l "json").isPrefixOf (pyLower t2) then pyStrip (t2.drop 4) else t2
  else txt

/-- The brace-slicing stage of `_extract_json_segment`:
`start = txt.find("{")`, `end = txt.rfind("}") + 1`; since `end` is `0`
(never `-1`) when `}` is absent, the guard `start != -1 and end != -1`
collapses to `start != -1`, and the Python slice `txt[start:end]` is empty
whenever `end <= start`. -/
def braceSlice (txt : List Char) : List Char :=
  match findChar txt '\x7b' with
  | none => txt
  | some start =>
    let e := match rfindChar txt '\x7d' with
             | none => 0
             | some j => j + 1
    pyStrip (((txt.drop start).take (e - start)))

/-- `_extract_json_segment`. -/
def _extract_json_segment (raw_text : List Char) : List Char :=
  if raw_text = [] then [] else braceSlice (fenceStrip raw_text)

/-- `_safe_parse_json`: parse the extracted segment, empty mapping on failure. -/
def _safe_parse_json (raw_text : List Char) : JVal :=
  match jsonLoads (_extract_json_segment raw_text) with
  | some v => v
  | none => JVal.jobj JObj.nil

/-! ## `normalizer.py`: prompt construction

Each builder is the source template with Python `str.format` already
applied around the insertion point (`{{`/`}}` rendered as literal braces). -/

def PROMPT_TEMPLATE_format (claim_text : List Char) : List Char :=
  str2l ("\nYou are an expert insurance claim analyst.\n\nYour task:\n" ++
    "Given a free-text insurance claim description, extract the following fields\n" ++
    "and return them as a single JSON object only, with no explanation text:\n\n" ++
    "- loss_type: short text describing the type/cause of loss\n" ++
    "  (e.g. \"Vehicle\", \"Fire\", \"Water Damage\", \"Theft\", \"Device\", \"Injury\")\n" ++
    "- severity: one of [\"Low\", \"Medium\", \"High\", \"Critical\"]\n" ++
    "- asset: what asset or property was affected (e.g. \"Car\", \"Building\", \"Laptop\")\n" ++
    "- estimated_loss: short string for approximate monetary loss if mentioned, else \"Unknown\"\n" ++
    "- incident_date: date or time phrase if mentioned, else \"Unknown\"\n" ++
    "- location: city/area/building, if mentioned, else \"Unknown\"\n" ++
    "- confidence: one of [\"Low\", \"Medium\", \"High\"] describing your confidence\n" ++
    "- explanation: ONE short sentence explaining your reasoning.\n\n" ++
    "Rules:\n- Output MUST be valid JSON.\n" ++
    "- Do not include any text before or after the JSON.\n" ++
    "- Do not use comments.\n" ++
    "- If a field is not explicitly stated, set it to \"Unknown\".\n\n" ++
    "Example 1:\nClaim description:\n" ++
    "\"Minor rear-end collision on the highway, bumper scratched. No injuries.\"\n\n" ++
    "JSON:\n\x7b\n  \"loss_type\": \"Vehicle\",\n  \"severity\": \"Low\",\n" ++
    "  \"asset\": \"Car\",\n  \"estimated_loss\": \"Unknown\",\n" ++
    "  \"incident_date\": \"Unknown\",\n  \"location\": \"Highway (unspecified)\",\n" ++
    "  \"confidence\": \"High\",\n" ++
    "  \"explanation\": \"This is a low severity vehicle claim affecting a car bumper with no injuries.\"\n\x7d\n\n" ++
    "Example 2:\nClaim description:\n" ++
    "\"Fire broke out in the kitchen last night in our Mumbai apartment, burning cabinets and ceiling.\"\n\n" ++
    "JSON:\n\x7b\n  \"loss_type\": \"Fire\",\n  \"severity\": \"High\",\n" ++
    "  \"asset\": \"Kitchen (apartment)\",\n  \"estimated_loss\": \"Unknown\",\n" ++
    "  \"incident_date\": \"Last night\",\n  \"location\": \"Mumbai apartment\",\n" ++
    "  \"confidence\": \"High\",\n" ++
    "  \"explanation\": \"Kitchen fire in a residential apartment with significant damage to cabinets and ceiling.\"\n\x7d\n\n" ++
    "Now analyze the following claim:\n\nClaim description:\n\"") ++
  claim_text ++ str2l "\"\n\nJSON:\n"

def SHORT_TEXT_CLASSIFIER_PROMPT_format (text : List Char) : List Char :=
  str2l ("\nYou are a classifier that determines whether a short text is an insurance claim\n" ++
    "or a normal conversational message.\n\n" ++
    "Return a JSON object in the following format:\n\n" ++
    "\x7b\n  \"is_claim\": true | false,\n  \"reason\": \"short explanation why\"\n\x7d\n\n" ++
    "Rules:\n" ++
    "- If the text describes damage, loss, fire, theft, accident, leakage, injury,\n" ++
    "  breakage, repairs, or financial harm -> is_claim = true.\n" ++
    "- If the text is conversational (greetings, jokes, questions, commands,\n" ++
    "  unrelated chat requests) -> is_claim = false.\n" ++
    "- Respond with only JSON.\n\nText:\n\"") ++
  text ++ str2l "\"\n"

def DOCUMENT_CLASSIFICATION_PROMPT_format (document_text : List Char) : List Char :=
  str2l ("\nYou are an insurance document classifier.\n\n" ++
    "You will receive the FULL TEXT of a PDF document extracted as plain text.\n\n" ++
    "Classify the document into ONE of these types:\n\n" ++
    "- \"CLAIM\": A specific incident is being reported. This includes:\n" ++
    "    - Fire, electrical short circuit, smoke damage\n" ++
    "    - Water leakage, flooding, burst pipes, urban floods, property damage\n" ++
    "    - Vehicle accidents or collisions (motor claims)\n" ++
    "    - Theft, burglary, break-in, stolen items\n" ++
    "    - Machinery or equipment breakdown\n" ++
    "    - Travel-related incidents such as baggage loss, mishandled luggage,\n" ++
    "      missing bags, airline PIR (Property Irregularity Report) references,\n" ++
    "      or compensation requests for lost items\n" ++
    "    - Health/medical incidents such as hospitalization, surgery, medical\n" ++
    "      treatment, reimbursement for hospital bills\n\n" ++
    "- \"POLICY\": Policy wording, coverage terms, exclusions, premium tables,\n" ++
    "  general product brochures, or any document that explains rules/coverage\n" ++
    "  rather than reporting a concrete loss event.\n\n" ++
    "- \"OTHER\": Anything else that is not an insurance claim or policy wording,\n" ++
    "  such as email correspondence, letters only about missing documents or\n" ++
    "  claim rejection WITHOUT describing the underlying incident.\n\n" ++
    "Examples that should be classified as OTHER:\n" ++
    "- Letters saying \"your health claim is rejected due to document mismatch\"\n" ++
    "  without describing the actual accident or illness.\n" ++
    "- Requests to resubmit KYC or identity documents.\n\n" ++
    "Respond with a SINGLE JSON object:\n\n" ++
    "\x7b\n  \"type\": \"CLAIM\" | \"POLICY\" | \"OTHER\",\n" ++
    "  \"reason\": \"short explanation of why you chose this type\"\n\x7d\n\n" ++
    "Rules:\n- Always return valid JSON and nothing else.\n" ++
    "- If the document clearly describes ANY incident or loss (accident, damage,\n" ++
    "  theft, fire, baggage loss, hospitalization, etc.), classify as CLAIM.\n" ++
    "- Only classify as POLICY when it contains rules/coverage details and NO\n" ++
    "  incident description.\n" ++
    "- Only classify as OTHER when it is correspondence or administrative communication.\n\n" ++
    "Document text:\n---\n") ++
  document_text ++ str2l "\n---\nReturn only the JSON object.\n"

/-! ## `normalizer.py`: classifiers -/

/-- `(parsed.get("type") or "OTHER").upper().strip()` — an `AttributeError`
(non-dict `parsed`, or `.upper()` on a truthy non-string) is `.error ()`. -/
def typeField (parsed : JVal) : Except Unit (List Char) :=
  match parsed with
  | .jobj m =>
    match jget m (str2l "type") with
    | none => Except.ok (str2l "OTHER")
    | some v =>
      if truthy v then
        match v with
        | .jstr s => Except.ok (pyStrip (pyUpper s))
        | _ => Except.error ()
      else Except.ok (str2l "OTHER")
  | _ => Except.error ()

/-- `(parsed.get("reason") or "").strip()`. -/
def reasonField (parsed : JVal) : Except Unit (List Char) :=
  match parsed with
  | .jobj m =>
    match jget m (str2l "reason") with
    | none => Except.ok []
    | some v =>
      if truthy v then
        match v with
        | .jstr s => Except.ok (pyStrip s)
        | _ => Except.error ()
      else Except.ok []
  | _ => Except.error ()

/-- `if doc_type not in {"CLAIM", "POLICY", "OTHER"}: doc_type = "OTHER"`. -/
def validNormType (dt : List Char) : List Char :=
  if dt = str2l "CLAIM" ∨ dt = str2l "POLICY" ∨ dt = str2l "OTHER" then dt else str2l "OTHER"

/-- The heuristic correction stage of `classify_document_type`: the validity
check, override A (claim keywords beat a non-CLAIM verdict), override B
(pure policy language downgrades a CLAIM verdict) and the final
reason fallback, applied to the parsed `(type, reason)` pair. -/
def applyOverrides (claim_hit policy_hit : Bool) (dt0 r0 : List Char) :
    Bool × List Char × List Char :=
  let dt1 := validNormType dt0
  let dtA := if claim_hit = true ∧ dt1 ≠ str2l "CLAIM" then str2l "CLAIM" else dt1
  let rA :=
    if claim_hit = true ∧ dt1 ≠ str2l "CLAIM" ∧ r0 = [] then
      str2l "Contains clear incident and loss-related keywords (heuristic override)."
    else r0
  let dtB :=
    if policy_hit = true ∧ claim_hit = false ∧ dtA = str2l "CLAIM" then str2l "POLICY"
    else dtA
  let rB :=
    if policy_hit = true ∧ claim_hit = false ∧ dtA = str2l "CLAIM" ∧ rA = [] then
      str2l "Contains only policy wording/coverage keywords and no incident description."
    else rA
  let rF := if rB = [] then str2l "Model did not provide a reason." else rB
  (decide (dtB = str2l "CLAIM"), dtB, rF)

/-- `classify_document_type`, parameterized by the oracle `gen`.
Returns `(is_claim, doc_type, reason)`. -/
def classify_document_type (gen : List Char → List Char) (document_text : List Char) :
    Except Unit (Bool × List Char × List Char) :=
  let dt := pyStrip document_text
  if dt = [] then Except.ok (false, str2l "OTHER", str2l "Document text is empty.")
  else
    let truncated := dt.take MAX_DOC_CHARS
    let lower := pyLower truncated
    let claim_hit := anyKeyword DOC_CLAIM_KEYWORDS lower
    let policy_hit := anyKeyword DOC_POLICY_KEYWORDS lower
    let nonclaim_letter_hit := anyKeyword DOC_NONCLAIM_LETTER_KEYWORDS lower
    if nonclaim_letter_hit = true ∧ claim_hit = false then
      Except.ok (false, str2l "OTHER",
        str2l "Letter about document mismatch/rejection, not a full claim report.")
    else
      let parsed := _safe_parse_json (gen (DOCUMENT_CLASSIFICATION_PROMPT_format truncated))
      match typeField parsed with
      | Except.error e => Except.error e
      | Except.ok dt0 =>
        match reasonField parsed with
        | Except.error e => Except.error e
        | Except.ok r0 => Except.ok (applyOverrides claim_hit policy_hit dt0 r0)

/-- `classify_short_text`: returns `(is_claim, reason)`, the reason kept as
the decoded JSON value (`parsed.get` has no string coercion). -/
def classify_short_text (gen : List Char → List Char) (text : List Char) :
    Except Unit (Bool × JVal) :=
  let t := pyStrip text
  if t = [] then Except.ok (false, JVal.jstr (str2l "Empty text."))
  else
    let parsed := _safe_parse_json (gen (SHORT_TEXT_CLASSIFIER_PROMPT_format t))
    match parsed with
    | .jobj m =>
      Except.ok
        (truthy ((jget m (str2l "is_claim")).getD (JVal.jbool false)),
         (jget m (str2l "reason")).getD (JVal.jstr (str2l "No reason provided.")))
    | _ => Except.error ()

/-! ## `schema.py`: the pydantic model -/

/-- `ClaimAttributes`: `loss_type`, `severity`, `asset` are typed `str`;
the remaining five are `Optional[str]`, so a `None` value is representable
(modelled by `Option`).  Defaults as in the source. -/
structure ClaimAttributes where
  loss_type : List Char := str2l "Unknown"
  severity : List Char := str2l "Unknown"
  asset : List Char := str2l "Unknown"
  estimated_loss : Option (List Char) := some (str2l "Unknown")
  incident_date : Option (List Char) := some (str2l "Unknown")
  location : Option (List Char) := some (str2l "Unknown")
  confidence : Option (List Char) := some (str2l "Unknown")
  explanation : Option (List Char) := some (str2l "Not provided")

/-- Validation of a `str` field (pydantic v2 lax mode: only a string is
accepted; numbers, booleans, `null` and containers raise). -/
def fieldStr (m : JObj) (key : List Char) (dflt : List Char) : Except Unit (List Char) :=
  match jget m key with
  | none => Except.ok dflt
  | some (.jstr s) => Except.ok s
  | some _ => Except.error ()

/-- Validation of an `Optional[str]` field: a string or `null` is accepted. -/
def fieldOptStr (m : JObj) (key : List Char) (dflt : Option (List Char)) :
    Except Unit (Option (List Char)) :=
  match jget m key with
  | none => Except.ok dflt
  | some (.jstr s) => Except.ok (some s)
  | some .jnull => Except.ok none
  | some _ => Except.error ()

/-- `ClaimAttributes(**parsed)`: a `TypeError` on a non-mapping argument and
a pydantic `ValidationError` on an ill-typed field value are `.error ()`;
unknown keys are ignored (pydantic default `extra="ignore"`). -/
def mkClaimAttributes (parsed : JVal) : Except Unit ClaimAttributes :=
  match parsed with
  | .jobj m => do
    let lt ← fieldStr m (str2l "loss_type") (str2l "Unknown")
    let sv ← fieldStr m (str2l "severity") (str2l "Unknown")
    let as ← fieldStr m (str2l "asset") (str2l "Unknown")
    let el ← fieldOptStr m (str2l "estimated_loss") (some (str2l "Unknown"))
    let idt ← fieldOptStr m (str2l "incident_date") (some (str2l "Unknown"))
    let lo ← fieldOptStr m (str2l "location") (some (str2l "Unknown"))
    let cf ← fieldOptStr m (str2l "confidence") (some (str2l "Unknown"))
    let ex ← fieldOptStr m (str2l "explanation") (some (str2l "Not provided"))
    Except.ok ⟨lt, sv, as, el, idt, lo, cf, ex⟩
  | _ => Except.error ()

/-! ## `normalizer.py`: the core normalizer -/

/-- The structured-extraction tail of `normalize_claim` (steps after the
non-claim gate): prompt, oracle, parse, construct. -/
def extractClaimRecord (gen : List Char → List Char) (claim_text : List Char) :
    Except Unit ClaimAttributes :=
  mkClaimAttributes (_safe_parse_json (gen (PROMPT_TEMPLATE_format claim_text)))

/-- The fixed non-claim sentinel record built in `normalize_claim`; the
explanation is the fixed prefix followed by `str(reason)`. -/
def sentinelRecord (reason : JVal) : ClaimAttributes :=
  { loss_type := str2l "Not a claim"
    severity := str2l "N/A"
    asset := str2l "N/A"
    estimated_loss := some (str2l "N/A")
    incident_date := some (str2l "N/A")
    location := some (str2l "N/A")
    confidence := some (str2l "High")
    explanation := some (str2l "The provided text is not an insurance claim. Reason: " ++
      pyStr reason) }

/-- `normalize_claim`, parameterized by the oracle `gen`. -/
def normalize_claim (gen : List Char → List Char) (claim_text : List Char) :
    Except Unit ClaimAttributes :=
  let t := pyStrip claim_text
  if t = [] then Except.ok {}
  else if _looks_like_claim t = false then
    match classify_short_text gen t with
    | Except.error e => Except.error e
    | Except.ok (is_claim, reason) =>
      if is_claim = false then Except.ok (sentinelRecord reason)
      else extractClaimRecord gen t
  else extractClaimRecord gen t

/-! ## Lemmas: decimal digits -/

def digitVal (c : Char) : Nat := c.toNat - 48

/-- `rest` does not begin with a digit (so a decoded number cannot swallow
characters belonging to it). -/
def digitSafe : List Char → Prop
  | [] => True
  | c :: _ => isDigitCh c = false

theorem isDigitCh_iff {c : Char} : isDigitCh c = true ↔ 48 ≤ c.toNat ∧ c.toNat ≤ 57 := by
  simp [isDigitCh]

theorem natDigitsF_fuel (n : Nat) :
    ∀ f1 f2, n < f1 → n < f2 → natDigitsF f1 n = natDigitsF f2 n := by
  induction n using Nat.strong_induction_on with
  | _ n ih =>
    intro f1 f2 h1 h2
    match f1, f2 with
    | Nat.succ f1, Nat.succ f2 =>
      simp only [natDigitsF]
      by_cases h : n < 10
      · simp [h]
      · have hd : n / 10 < n := Nat.div_lt_self (by omega) (by omega)
        simp only [if_neg h]
        rw [ih (n / 10) hd f1 f2 (by omega) (by omega)]

theorem natDigits_eq (n : Nat) :
    natDigits n = if n < 10 then [digitChar n] else natDigits (n / 10) ++ [digitChar (n % 10)] := by
  by_cases h : n < 10
  · simp [natDigits, natDigitsF, h]
  · have hd : n / 10 < n := Nat.div_lt_self (by omega) (by omega)
    rw [if_neg h,
      show natDigits n = natDigitsF n (n / 10) ++ [digitChar (n % 10)] from by
        simp only [natDigits, natDigitsF, if_neg h]]
    congr 1
    exact natDigitsF_fuel (n / 10) n (n / 10 + 1) (by omega) (by omega)

theorem digitChar_spec : ∀ d, d < 10 →
    isDigitCh (digitChar d) = true ∧ digitVal (digitChar d) = d ∧ (0 < d → digitChar d ≠ '0') := by
  decide

theorem natDigits_digits (n : Nat) : ∀ c ∈ natDigits n, isDigitCh c = true := by
  induction n using Nat.strong_induction_on with
  | _ n ih =>
    rw [natDigits_eq]
    by_cases h : n < 10
    · simp only [if_pos h, List.mem_singleton]
      rintro c rfl
      exact (digitChar_spec n h).1
    · have hd : n / 10 < n := Nat.div_lt_self (by omega) (by omega)
      simp only [if_neg h, List.mem_append, List.mem_singleton]
      rintro c (hc | rfl)
      · exact ih (n / 10) hd c hc
      · exact (digitChar_spec (n % 10) (Nat.mod_lt n (by omega))).1

theorem natDigits_head (n : Nat) (hn : 0 < n) :
    ∃ c cs, natDigits n = c :: cs ∧ c ≠ '0' ∧ isDigitCh c = true := by
  induction n using Nat.strong_induction_on with
  | _ n ih =>
    rw [natDigits_eq]
    by_cases h : n < 10
    · exact ⟨digitChar n, [], by simp [h], (digitChar_spec n h).2.2 hn, (digitChar_spec n h).1⟩
    · have hd : n / 10 < n := Nat.div_lt_self (by omega) (by omega)
      obtain ⟨c, cs, hcs, hc0, hcd⟩ := ih (n / 10) hd (by omega)
      exact ⟨c, cs ++ [digitChar (n % 10)], by simp [h, hcs], hc0, hcd⟩

theorem natDigits_foldl (n : Nat) :
    ∀ acc, (natDigits n).foldl (fun a c => a * 10 + digitVal c) acc =
      acc * 10 ^ (natDigits n).length + n := by
  induction n using Nat.strong_induction_on with
  | _ n ih =>
    intro acc
    rw [natDigits_eq]
    by_cases h : n < 10
    · simp only [if_pos h, List.foldl_cons, List.foldl_nil, List.length_singleton, pow_one]
      rw [(digitChar_spec n h).2.1]
    · have hd : n / 10 < n := Nat.div_lt_self (by omega) (by omega)
      simp only [if_neg h, List.foldl_append, List.foldl_cons, List.foldl_nil,
        List.length_append, List.length_singleton]
      rw [ih (n / 10) hd acc, (digitChar_spec (n % 10) (Nat.mod_lt n (by omega))).2.1,
        pow_succ, ← mul_assoc]
      have hdm := Nat.div_add_mod n 10
      generalize acc * 10 ^ (natDigits (n / 10)).length = A
      omega

theorem takeDigitsAcc_append (ds : List Char) (hds : ∀ c ∈ ds, isDigitCh c = true) :
    ∀ acc rest, takeDigitsAcc acc (ds ++ rest) =
      takeDigitsAcc (ds.foldl (fun a c => a * 10 + digitVal c) acc) rest := by
  induction ds with
  | nil => intro acc rest; simp
  | cons c cs ih =>
    intro acc rest
    have hc := hds c (by simp)
    simp only [List.cons_append, takeDigitsAcc, hc, if_true, List.foldl_cons]
    exact ih (fun d hd => hds d (by simp [hd])) _ rest

theorem takeDigitsAcc_stop (acc : Nat) (rest : List Char) (h : digitSafe rest) :
    takeDigitsAcc acc rest = (acc, rest) := by
  cases rest with
  | nil => rfl
  | cons c r => simp only [digitSafe] at h; simp [takeDigitsAcc, h]

theorem parseNat0_natDigits (n : Nat) (rest : List Char) (h : digitSafe rest) :
    parseNat0 (natDigits n ++ rest) = some (n, rest) := by
  rcases Nat.eq_zero_or_pos n with rfl | hn
  · have h0 : natDigits 0 = ['0'] := rfl
    rw [h0]
    simp [parseNat0, takeDigitsAcc_stop _ _ h]
  · obtain ⟨c, cs, hcs, hc0, hcd⟩ := natDigits_head n hn
    have hmem : ∀ d ∈ cs, isDigitCh d = true := by
      intro d hd
      exact natDigits_digits n d (by rw [hcs]; simp [hd])
    rw [hcs]
    simp only [List.cons_append, parseNat0, if_neg hc0, hcd, if_true]
    rw [takeDigitsAcc_append cs hmem _ rest, takeDigitsAcc_stop _ _ h]
    have hval : (natDigits n).foldl (fun a c => a * 10 + digitVal c) 0 = n := by
      rw [natDigits_foldl n 0]; simp
    rw [hcs] at hval
    simp only [List.foldl_cons] at hval
    have : (0 : Nat) * 10 + digitVal c = c.toNat - 48 := by simp [digitVal]
    rw [this] at hval
    rw [hval]

/-! ## Lemmas: string escaping round-trips through the string decoder -/

theorem hexVal_hexDigit : ∀ h, h < 16 → hexVal (hexDigit h) = some h := by decide

theorem escString_cons (c : Char) (s : List Char) :
    escString (c :: s) = escChar c ++ escString s := rfl

theorem psb_quote (f : Nat) (r : List Char) :
    parseStringBody (f + 1) ('"' :: r) = some ([], r) := by
  simp [parseStringBody]

theorem psb_backslash (f : Nat) (r : List Char) :
    parseStringBody (f + 1) ('\\' :: r) =
      match escStep r with
      | some (ch, r2) => (parseStringBody f r2).map (fun p => (ch :: p.1, p.2))
      | none => none := by
  simp [parseStringBody]

theorem psb_char (f : Nat) (c : Char) (r : List Char) (h1 : c ≠ '"') (h2 : c ≠ '\\')
    (h8 : ¬ c.toNat < 32) :
    parseStringBody (f + 1) (c :: r) = (parseStringBody f r).map (fun p => (c :: p.1, p.2)) := by
  simp [parseStringBody, h1, h2, h8]

theorem parseStringBody_esc (s : List Char) :
    ∀ fuel rest, (escString s).length < fuel →
      parseStringBody fuel (escString s ++ '"' :: rest) = some (s, rest) := by
  induction s with
  | nil =>
    intro fuel rest h
    simp only [escString, List.foldr_nil, List.nil_append]
    obtain ⟨f, rfl⟩ : ∃ f, fuel = f + 1 := ⟨fuel - 1, by omega⟩
    exact psb_quote f rest
  | cons c s ih =>
    intro fuel rest h
    rw [escString_cons] at h
    have hec : 1 ≤ (escChar c).length := by unfold escChar; split_ifs <;> simp
    obtain ⟨f, rfl⟩ : ∃ f, fuel = f + 1 := ⟨fuel - 1, by
      simp only [List.length_append] at h; omega⟩
    have hfs : (escString s).length < f := by
      simp only [List.length_append] at h; omega
    rw [escString_cons, List.append_assoc]
    by_cases h1 : c = '"'
    · subst h1
      rw [show escChar '"' = ['\\', '"'] from rfl]
      simp only [List.cons_append, List.nil_append]
      rw [psb_backslash, show escStep ('"' :: (escString s ++ '"' :: rest)) =
        some ('"', escString s ++ '"' :: rest) from by simp [escStep, unescSimple]]
      simp [ih f rest hfs]
    · by_cases h2 : c = '\\'
      · subst h2
        rw [show escChar '\\' = ['\\', '\\'] from rfl]
        simp only [List.cons_append, List.nil_append]
        rw [psb_backslash, show escStep ('\\' :: (escString s ++ '"' :: rest)) =
          some ('\\', escString s ++ '"' :: rest) from by simp [escStep, unescSimple]]
        simp [ih f rest hfs]
      · by_cases h3 : c = '\n'
        · subst h3
          rw [show escChar '\n' = ['\\', 'n'] from rfl]
          simp only [List.cons_append, List.nil_append]
          rw [psb_backslash, show escStep ('n' :: (escString s ++ '"' :: rest)) =
            some ('\n', escString s ++ '"' :: rest) from by simp [escStep, unescSimple]]
          simp [ih f rest hfs]
        · by_cases h4 : c = '\t'
          · subst h4
            rw [show escChar '\t' = ['\\', 't'] from rfl]
            simp only [List.cons_append, List.nil_append]
            rw [psb_backslash, show escStep ('t' :: (escString s ++ '"' :: rest)) =
              some ('\t', escString s ++ '"' :: rest) from by simp [escStep, unescSimple]]
            simp [ih f rest hfs]
          · by_cases h5 : c = '\r'
            · subst h5
              rw [show escChar '\r' = ['\\', 'r'] from rfl]
              simp only [List.cons_append, List.nil_append]
              rw [psb_backslash, show escStep ('r' :: (escString s ++ '"' :: rest)) =
                some ('\r', escString s ++ '"' :: rest) from by simp [escStep, unescSimple]]
              simp [ih f rest hfs]
            · by_cases h6 : c = '\x08'
              · subst h6
                rw [show escChar '\x08' = ['\\', 'b'] from rfl]
                simp only [List.cons_append, List.nil_append]
                rw [psb_backslash, show escStep ('b' :: (escString s ++ '"' :: rest)) =
                  some ('\x08', escString s ++ '"' :: rest) from by simp [escStep, unescSimple]]
                simp [ih f rest hfs]
              · by_cases h7 : c = '\x0c'
                · subst h7
                  rw [show escChar '\x0c' = ['\\', 'f'] from rfl]
                  simp only [List.cons_append, List.nil_append]
                  rw [psb_backslash, show escStep ('f' :: (escString s ++ '"' :: rest)) =
                    some ('\x0c', escString s ++ '"' :: rest) from by simp [escStep, unescSimple]]
                  simp [ih f rest hfs]
                · by_cases h8 : c.toNat < 32
                  · have ht16 : c.toNat / 16 < 16 := by omega
                    have hm16 : c.toNat % 16 < 16 := by omega
                    have e1 : hex4 '0' '0' (hexDigit (c.toNat / 16)) (hexDigit (c.toNat % 16)) =
                        some c.toNat := by
                      unfold hex4
                      rw [hexVal_hexDigit _ ht16, hexVal_hexDigit _ hm16,
                        show hexVal '0' = some 0 from rfl]
                      simp
                      omega
                    have e0 : escChar c =
                        ['\\', 'u', '0', '0', hexDigit (c.toNat / 16), hexDigit (c.toNat % 16)] := by
                      simp [escChar, h1, h2, h3, h4, h5, h6, h7, h8]
                    have e2 : escStep ('u' :: '0' :: '0' :: hexDigit (c.toNat / 16) ::
                        hexDigit (c.toNat % 16) :: (escString s ++ '"' :: rest)) =
                        some (c, escString s ++ '"' :: rest) := by
                      simp only [escStep, if_pos rfl, e1]
                      rw [if_pos (Or.inl (by omega : c.toNat < 0xD800)), Char.ofNat_toNat]
                      simp
                    rw [e0]
                    simp only [List.cons_append, List.nil_append]
                    rw [psb_backslash, e2]
                    simp [ih f rest hfs]
                  · have e0 : escChar c = [c] := by
                      simp [escChar, h1, h2, h3, h4, h5, h6, h7, h8]
                    rw [e0]
                    simp only [List.cons_append, List.nil_append]
                    rw [psb_char f c _ h1 h2 h8]
                    simp [ih f rest hfs]

/-! ## Lemmas: the serializer's output re-parses (round trip) -/

theorem skipWs_not {c : Char} (r : List Char) (h : jsonWs c = false) :
    skipWs (c :: r) = c :: r := by
  simp [skipWs, h]

theorem natDigits_cons (n : Nat) : ∃ c cs, natDigits n = c :: cs ∧ isDigitCh c = true := by
  rcases Nat.eq_zero_or_pos n with rfl | hn
  · exact ⟨'0', [], rfl, by decide⟩
  · obtain ⟨c, cs, hcs, _, hd⟩ := natDigits_head n hn
    exact ⟨c, cs, hcs, hd⟩

theorem digit_not_val {c : Char} (h : isDigitCh c = true) :
    jsonWs c = false ∧ c ≠ '\x7b' ∧ c ≠ '[' ∧ c ≠ '"' ∧ c ≠ 't' ∧ c ≠ 'f' ∧ c ≠ 'n' ∧
      c ≠ '-' ∧ c ≠ ']' := by
  refine ⟨?_, ?_, ?_, ?_, ?_, ?_, ?_, ?_, ?_⟩
  · cases hw : jsonWs c
    · rfl
    · exfalso
      simp only [jsonWs, Bool.or_eq_true, decide_eq_true_eq] at hw
      rcases hw with ((rfl | rfl) | rfl) | rfl <;> exact absurd h (by decide)
  all_goals rintro rfl; exact absurd h (by decide)

theorem serInt_head (i : Int) :
    ∃ c w, serInt i = c :: w ∧ jsonWs c = false ∧ c ≠ ']' := by
  unfold serInt
  by_cases hi : i < 0
  · exact ⟨'-', natDigits i.natAbs, by simp [hi], by decide, by decide⟩
  · obtain ⟨c, cs, hcs, hd⟩ := natDigits_cons i.natAbs
    obtain ⟨hw, h2⟩ := digit_not_val hd
    exact ⟨c, cs, by simp [hi, hcs], hw, h2.2.2.2.2.2.2.2⟩

theorem serVal_head (v : JVal) :
    ∃ c w, serVal v = c :: w ∧ jsonWs c = false ∧ c ≠ ']' := by
  cases v with
  | jstr s => exact ⟨'"', escString s ++ ['"'], by simp [serVal, serStr], by decide, by decide⟩
  | jint i => simpa [serVal] using serInt_head i
  | jbool b =>
    cases b with
    | true => exact ⟨'t', ['r', 'u', 'e'], by simp [serVal, str2l], by decide, by decide⟩
    | false => exact ⟨'f', ['a', 'l', 's', 'e'], by simp [serVal, str2l], by decide, by decide⟩
  | jnull => exact ⟨'n', ['u', 'l', 'l'], by simp [serVal, str2l], by decide, by decide⟩
  | jarr a =>
    cases a with
    | nil => exact ⟨'[', [']'], by simp [serVal, str2l], by decide, by decide⟩
    | cons v t =>
      exact ⟨'[', serVal v ++ serArrTail t, by simp [serVal], by decide, by decide⟩
  | jobj o =>
    cases o with
    | nil => exact ⟨'\x7b', ['\x7d'], by simp [serVal, str2l], by decide, by decide⟩
    | cons k v t =>
      exact ⟨'\x7b', serStr k ++ ':' :: serVal v ++ serObjTail t, by simp [serVal], by decide,
        by decide⟩

theorem digitSafe_serArrTail (t : JArr) (z : List Char) : digitSafe (serArrTail t ++ z) := by
  cases t <;> simp [serArrTail, digitSafe, isDigitCh]

theorem digitSafe_serObjTail (t : JObj) (z : List Char) : digitSafe (serObjTail t ++ z) := by
  cases t <;> simp [serObjTail, digitSafe, isDigitCh]

theorem serArrTail_len_pos (t : JArr) : 1 ≤ (serArrTail t).length := by
  cases t <;> simp [serArrTail]

theorem serObjTail_len_pos (t : JObj) : 1 ≤ (serObjTail t).length := by
  cases t <;> simp [serObjTail]

mutual

/-- Whatever the canonical serializer emits for a value re-parses to that
value, leaving exactly the trailing input (which must not begin with a
digit, so that a serialized integer cannot capture it). -/
theorem rt_val (fuel : Nat) (v : JVal) (rest : List Char)
    (hf : (serVal v).length < fuel) (hd : digitSafe rest) :
    parseF fuel PMode.val (serVal v ++ rest) = some (v, rest) := by
  obtain ⟨f, rfl⟩ : ∃ f, fuel = f + 1 := ⟨fuel - 1, by omega⟩
  cases v with
  | jstr s =>
    have hlen : (escString s).length < f := by
      simp [serVal, serStr] at hf; omega
    have hkey := parseStringBody_esc s f rest hlen
    simp only [serVal, serStr, List.cons_append, List.nil_append, List.append_assoc,
      List.singleton_append] at hkey ⊢
    simp [parseF, skipWs, jsonWs, hkey]
  | jint i =>
    by_cases hi : i < 0
    · have harr : serVal (.jint i) ++ rest = '-' :: (natDigits i.natAbs ++ rest) := by
        simp [serVal, serInt, hi]
      have hp := parseNat0_natDigits i.natAbs rest hd
      have hcast : ((i.natAbs : Nat) : Int) = -i := by omega
      rw [harr]
      simp [parseF, skipWs, jsonWs, hp, hcast]
    · obtain ⟨c, cs, hcs, hdg⟩ := natDigits_cons i.natAbs
      obtain ⟨hw, h7b, h7c, h7d, h7e, h7f, h7g, h7h, _⟩ := digit_not_val hdg
      have harr : serVal (.jint i) ++ rest = c :: (cs ++ rest) := by
        simp [serVal, serInt, hi, hcs]
      have hp : parseNat0 (c :: (cs ++ rest)) = some (i.natAbs, rest) := by
        rw [show c :: (cs ++ rest) = natDigits i.natAbs ++ rest from by rw [hcs]; simp]
        exact parseNat0_natDigits _ _ hd
      have hcast : ((i.natAbs : Nat) : Int) = i := by omega
      rw [harr]
      simp [parseF, skipWs, hw, hp, h7b, h7c, h7d, h7e, h7f, h7g, h7h, hdg, hcast]
  | jbool b =>
    cases b with
    | true =>
      have harr : serVal (.jbool true) ++ rest = 't' :: 'r' :: 'u' :: 'e' :: rest := by
        simp [serVal, str2l]
      rw [harr]
      simp [parseF, skipWs, jsonWs]
    | false =>
      have harr : serVal (.jbool false) ++ rest = 'f' :: 'a' :: 'l' :: 's' :: 'e' :: rest := by
        simp [serVal, str2l]
      rw [harr]
      simp [parseF, skipWs, jsonWs]
  | jnull =>
    have harr : serVal JVal.jnull ++ rest = 'n' :: 'u' :: 'l' :: 'l' :: rest := by
      simp [serVal, str2l]
    rw [harr]
    simp [parseF, skipWs, jsonWs]
  | jarr a =>
    cases a with
    | nil =>
      have harr : serVal (.jarr .nil) ++ rest = '[' :: ']' :: rest := by
        simp [serVal, str2l]
      rw [harr]
      simp [parseF, skipWs, jsonWs]
    | cons v t =>
      obtain ⟨c, w, hway, hwsc, hnec⟩ := serVal_head v
      have hit := rt_items f v t rest (by simp [serVal] at hf; omega)
      simp only [jsonWs, Bool.or_eq_true, decide_eq_true_eq] at hwsc
      rw [Bool.eq_false_iff] at hwsc
      simp only [serVal, List.cons_append, List.nil_append, List.append_assoc] at hit ⊢
      rw [hway] at hit ⊢
      simp only [List.cons_append] at hit ⊢
      simp [parseF, skipWs, jsonWs, hwsc, hnec, hit]
  | jobj o =>
    cases o with
    | nil =>
      have harr : serVal (.jobj .nil) ++ rest = '\x7b' :: '\x7d' :: rest := by
        simp [serVal, str2l]
      rw [harr]
      simp [parseF, skipWs, jsonWs]
    | cons k v t =>
      have hmem := rt_members f k v t rest (by simp [serVal] at hf; omega)
      simp only [serVal, serStr, List.cons_append, List.nil_append, List.append_assoc,
        List.singleton_append] at hmem ⊢
      simp [parseF, skipWs, jsonWs, hmem]
termination_by fuel
decreasing_by all_goals omega

theorem rt_items (fuel : Nat) (v : JVal) (t : JArr) (rest : List Char)
    (hf : (serVal v).length + (serArrTail t).length < fuel) :
    parseF fuel PMode.items (serVal v ++ (serArrTail t ++ rest)) =
      some (.jarr (.cons v t), rest) := by
  obtain ⟨f, rfl⟩ : ∃ f, fuel = f + 1 := ⟨fuel - 1, by omega⟩
  have hat := serArrTail_len_pos t
  cases t with
  | nil =>
    have hval := rt_val f v (serArrTail .nil ++ rest)
      (by simp [serArrTail] at hf; omega) (digitSafe_serArrTail .nil rest)
    simp only [serArrTail, List.cons_append, List.nil_append, List.append_assoc,
      List.singleton_append] at hval ⊢
    simp [parseF, skipWs, jsonWs, hval]
  | cons v2 t2 =>
    have hval := rt_val f v (serArrTail (.cons v2 t2) ++ rest)
      (by simp [serArrTail] at hf ⊢; omega) (digitSafe_serArrTail _ rest)
    have hit2 := rt_items f v2 t2 rest
      (by simp [serArrTail, List.length_append] at hf ⊢; omega)
    simp only [serArrTail, List.cons_append, List.nil_append, List.append_assoc,
      List.singleton_append] at hval hit2 ⊢
    simp [parseF, skipWs, jsonWs, hval, hit2]
termination_by fuel
decreasing_by all_goals omega

theorem rt_members (fuel : Nat) (k : List Char) (v : JVal) (t : JObj) (rest : List Char)
    (hf : (serStr k).length + 1 + (serVal v).length + (serObjTail t).length < fuel) :
    parseF fuel PMode.members (serStr k ++ (':' :: (serVal v ++ (serObjTail t ++ rest)))) =
      some (.jobj (.cons k v t), rest) := by
  obtain ⟨f, rfl⟩ : ∃ f, fuel = f + 1 := ⟨fuel - 1, by omega⟩
  have hot := serObjTail_len_pos t
  have hstr : (serStr k).length = (escString k).length + 2 := by simp [serStr]
  have hkey := parseStringBody_esc k f (':' :: (serVal v ++ (serObjTail t ++ rest)))
    (by omega)
  have hval := rt_val f v (serObjTail t ++ rest) (by omega) (digitSafe_serObjTail t rest)
  cases t with
  | nil =>
    simp only [serObjTail, serStr, List.cons_append, List.nil_append, List.append_assoc,
      List.singleton_append] at hkey hval ⊢
    simp [parseF, skipWs, jsonWs, hkey, hval]
  | cons k2 v2 t2 =>
    have hmem2 := rt_members f k2 v2 t2 rest
      (by simp [serObjTail, List.length_append] at hf ⊢; omega)
    simp only [serObjTail, serStr, List.cons_append, List.nil_append, List.append_assoc,
      List.singleton_append] at hkey hval hmem2 ⊢
    simp [parseF, skipWs, jsonWs, hkey, hval, hmem2]
termination_by fuel
decreasing_by all_goals omega

end

/-- The canonical serialization of any value decodes to that value. -/
theorem jsonLoads_serVal (v : JVal) : jsonLoads (serVal v) = some v := by
  unfold jsonLoads
  have h := rt_val ((serVal v).length + 1) v [] (by omega) trivial
  rw [show serVal v ++ ([] : List Char) = serVal v from by simp] at h
  rw [h]
  simp [skipWs]

/-! ## Lemmas: locating an embedded object inside surrounding text -/

theorem dropWhile_append_head (p : Char → Bool) (a : List Char) (c : Char) (w : List Char)
    (hc : p c = false) :
    List.dropWhile p (a ++ c :: w) = List.dropWhile p a ++ c :: w := by
  induction a with
  | nil => simp [List.dropWhile, hc]
  | cons x xs ih =>
    by_cases hx : p x
    · simp [List.dropWhile, hx, ih]
    · simp [List.dropWhile, hx]

theorem mem_of_mem_dropWhile {p : Char → Bool} {x : Char} {l : List Char}
    (h : x ∈ List.dropWhile p l) : x ∈ l :=
  (List.dropWhile_sublist p).mem h

/-- Stripping whitespace around `p1 ++ s ++ p2` stays inside `p1` and `p2`
when `s` begins and ends with a non-whitespace character. -/
theorem pyStrip_sandwich (p1 s p2 : List Char)
    (hhead : ∃ c w, s = c :: w ∧ pyWs c = false)
    (hlast : ∃ w d, s = w ++ [d] ∧ pyWs d = false) :
    pyStrip (p1 ++ s ++ p2) =
      (p1.dropWhile pyWs) ++ s ++ ((p2.reverse.dropWhile pyWs).reverse) := by
  obtain ⟨c, w, hs1, hc⟩ := hhead
  obtain ⟨w2, d, hs2, hd2⟩ := hlast
  unfold pyStrip
  have h1 : List.dropWhile pyWs (p1 ++ s ++ p2) = (p1.dropWhile pyWs) ++ s ++ p2 := by
    rw [List.append_assoc, hs1]
    rw [show (c :: w) ++ p2 = c :: (w ++ p2) from by simp]
    rw [dropWhile_append_head pyWs p1 c (w ++ p2) hc]
    simp [hs1]
  rw [h1]
  have h2 : ((p1.dropWhile pyWs) ++ s ++ p2).reverse =
      p2.reverse ++ (d :: (w2.reverse ++ (p1.dropWhile pyWs).reverse)) := by
    rw [hs2]
    simp [List.reverse_append]
  rw [h2, dropWhile_append_head pyWs p2.reverse d _ hd2]
  rw [show List.dropWhile pyWs p2.reverse ++ d :: (w2.reverse ++ (p1.dropWhile pyWs).reverse) =
      List.dropWhile pyWs p2.reverse ++ (w2 ++ [d]).reverse ++ (p1.dropWhile pyWs).reverse
    from by simp [List.reverse_append]]
  simp [List.reverse_append, hs2]

theorem findChar_cons_self (c : Char) (r : List Char) : findChar (c :: r) c = some 0 := by
  simp [findChar]

theorem findChar_append_not (a b : List Char) (c : Char) (ha : c ∉ a) :
    findChar (a ++ b) c = (findChar b c).map (· + a.length) := by
  induction a with
  | nil => simp [Option.map_id]
  | cons x xs ih =>
    have hx : x ≠ c := by rintro rfl; exact ha (by simp)
    have hxs : c ∉ xs := fun h => ha (by simp [h])
    simp only [List.cons_append, findChar, if_neg hx, List.append_eq]
    rw [ih hxs]
    cases findChar b c with
    | none => rfl
    | some i =>
      simp only [Option.map_some', Option.some.injEq, List.length_cons]
      omega

theorem rfindChar_append (y q2 : List Char) (c : Char) (h : c ∉ q2) :
    rfindChar (y ++ c :: q2) c = some y.length := by
  unfold rfindChar
  have hrev : (y ++ c :: q2).reverse = q2.reverse ++ c :: y.reverse := by
    simp [List.reverse_append]
  rw [hrev, findChar_append_not _ _ _ (by simpa using h), findChar_cons_self]
  simp [List.length_append]

theorem serObjTail_ends (t : JObj) : ∃ i, serObjTail t = i ++ ['\x7d'] := by
  cases t with
  | nil => exact ⟨[], rfl⟩
  | cons k v t2 =>
    obtain ⟨i, hi⟩ := serObjTail_ends t2
    exact ⟨',' :: serStr k ++ ':' :: serVal v ++ i, by simp [serObjTail, hi]⟩

theorem serObj_shape (o : JObj) : ∃ mid, serVal (.jobj o) = '\x7b' :: mid ++ ['\x7d'] := by
  cases o with
  | nil => exact ⟨[], rfl⟩
  | cons k v t =>
    obtain ⟨i, hi⟩ := serObjTail_ends t
    exact ⟨serStr k ++ ':' :: serVal v ++ i, by simp [serVal, hi]⟩

theorem pyStrip_of_ends (s : List Char)
    (hhead : ∃ c w, s = c :: w ∧ pyWs c = false)
    (hlast : ∃ w d, s = w ++ [d] ∧ pyWs d = false) : pyStrip s = s := by
  have h := pyStrip_sandwich [] s [] hhead hlast
  simpa using h

theorem braceSlice_extract (q1 mid q2 : List Char) (h1 : '\x7b' ∉ q1) (h2 : '\x7d' ∉ q2) :
    braceSlice (q1 ++ ('\x7b' :: mid ++ ['\x7d']) ++ q2) =
      pyStrip ('\x7b' :: mid ++ ['\x7d']) := by
  have hf : findChar (q1 ++ ('\x7b' :: mid ++ ['\x7d']) ++ q2) '\x7b' = some q1.length := by
    rw [List.append_assoc, findChar_append_not _ _ _ h1]
    rw [show ('\x7b' :: mid ++ ['\x7d']) ++ q2 = '\x7b' :: (mid ++ ['\x7d'] ++ q2) from by simp]
    rw [findChar_cons_self]
    simp
  have hr : rfindChar (q1 ++ ('\x7b' :: mid ++ ['\x7d']) ++ q2) '\x7d' =
      some (q1.length + 1 + mid.length) := by
    rw [show q1 ++ ('\x7b' :: mid ++ ['\x7d']) ++ q2 =
        (q1 ++ '\x7b' :: mid) ++ '\x7d' :: q2 from by simp]
    rw [rfindChar_append _ _ _ h2]
    simp [List.length_append]
    omega
  unfold braceSlice
  rw [hf, hr]
  have hdrop : (q1 ++ ('\x7b' :: mid ++ ['\x7d']) ++ q2).drop q1.length =
      ('\x7b' :: mid ++ ['\x7d']) ++ q2 := by
    rw [List.append_assoc]
    exact List.drop_left q1 _
  have hlen : q1.length + 1 + mid.length + 1 - q1.length =
      ('\x7b' :: mid ++ ['\x7d']).length := by
    simp [List.length_append]
    omega
  simp only [hdrop, hlen, List.take_left]

theorem notPrefixTicks (x : List Char) (hx : ∀ c w, x = c :: w → c ≠ '\x60') :
    ¬ (str2l "```" <+: x) := by
  cases x with
  | nil =>
    intro h
    have := h.length_le
    simp [str2l] at this
  | cons c w =>
    intro h
    rw [show str2l "```" = '\x60' :: ['\x60', '\x60'] from rfl, List.cons_prefix_cons] at h
    exact (hx c w rfl) h.1.symm

/-- Plain surrounding text: if the preceding text has no opening brace and
no backtick and the following text has no closing brace, the segment
extractor returns exactly the serialized object. -/
theorem extract_json_segment_plain (o : JObj) (p1 p2 : List Char)
    (hb : '\x7b' ∉ p1) (ht : '\x60' ∉ p1) (hc : '\x7d' ∉ p2) :
    _extract_json_segment (p1 ++ serVal (.jobj o) ++ p2) = serVal (.jobj o) := by
  obtain ⟨mid, hmid⟩ := serObj_shape o
  have hhead : ∃ c w, serVal (.jobj o) = c :: w ∧ pyWs c = false :=
    ⟨'\x7b', mid ++ ['\x7d'], hmid, by decide⟩
  have hlast : ∃ w d, serVal (.jobj o) = w ++ [d] ∧ pyWs d = false :=
    ⟨'\x7b' :: mid, '\x7d', by simp [hmid], by decide⟩
  have hne : p1 ++ serVal (.jobj o) ++ p2 ≠ [] := by
    intro h
    have := congrArg List.length h
    simp [hmid] at this
  have hstrip := pyStrip_sandwich p1 (serVal (.jobj o)) p2 hhead hlast
  have hq1b : '\x7b' ∉ p1.dropWhile pyWs := fun h => hb (mem_of_mem_dropWhile h)
  have hq1t : '\x60' ∉ p1.dropWhile pyWs := fun h => ht (mem_of_mem_dropWhile h)
  have hq2c : '\x7d' ∉ (p2.reverse.dropWhile pyWs).reverse := by
    intro h
    exact hc (by simpa using mem_of_mem_dropWhile (List.mem_reverse.mp h))
  have hfence : fenceStrip (p1 ++ serVal (.jobj o) ++ p2) =
      p1.dropWhile pyWs ++ serVal (.jobj o) ++ (p2.reverse.dropWhile pyWs).reverse := by
    unfold fenceStrip
    rw [hstrip]
    have hnp : ¬ (str2l "```" <+:
        (p1.dropWhile pyWs ++ (serVal (.jobj o) ++ (p2.reverse.dropWhile pyWs).reverse))) := by
      apply notPrefixTicks
      intro c w hcw
      cases hq : p1.dropWhile pyWs with
      | nil =>
        rw [hq] at hcw
        simp only [List.nil_append] at hcw
        rw [hmid] at hcw
        simp only [List.cons_append, List.cons.injEq] at hcw
        rw [← hcw.1]
        decide
      | cons c0 w0 =>
        rw [hq] at hcw
        simp only [List.cons_append, List.cons.injEq] at hcw
        rw [← hcw.1]
        intro hh
        exact hq1t (by rw [hq, hh]; simp)
    simp [hnp]
  unfold _extract_json_segment
  rw [if_neg hne, hfence]
  rw [show p1.dropWhile pyWs ++ serVal (.jobj o) ++ (p2.reverse.dropWhile pyWs).reverse =
      p1.dropWhile pyWs ++ ('\x7b' :: mid ++ ['\x7d']) ++ (p2.reverse.dropWhile pyWs).reverse
    from by rw [hmid]]
  rw [braceSlice_extract _ _ _ hq1b hq2c, ← hmid]
  exact pyStrip_of_ends _ hhead hlast

/-- Fenced form: a markdown code fence with a `json` tag around the
serialized object is stripped and the object recovered. -/
theorem extract_json_segment_fenced (o : JObj) :
    _extract_json_segment (str2l "```json\n" ++ serVal (.jobj o) ++ str2l "\n```") =
      serVal (.jobj o) := by
  obtain ⟨mid, hmid⟩ := serObj_shape o
  have hne : str2l "```json\n" ++ serVal (.jobj o) ++ str2l "\n```" ≠ [] := by
    intro h
    have := congrArg List.length h
    simp [str2l] at this
  have hhead : ∃ c w, str2l "```json\n" ++ serVal (.jobj o) ++ str2l "\n```" = c :: w ∧
      pyWs c = false := by
    refine ⟨'\x60', str2l "``json\n" ++ serVal (.jobj o) ++ str2l "\n```", ?_, by decide⟩
    simp [str2l]
  have hlast : ∃ w d, str2l "```json\n" ++ serVal (.jobj o) ++ str2l "\n```" = w ++ [d] ∧
      pyWs d = false := by
    refine ⟨str2l "```json\n" ++ serVal (.jobj o) ++ str2l "\n``", '\x60', ?_, by decide⟩
    simp [str2l]
  have hstrip := pyStrip_of_ends _ hhead hlast
  have hpre : str2l "```" <+: (str2l "```json\n" ++ serVal (.jobj o) ++ str2l "\n```") := by
    refine ⟨str2l "json\n" ++ serVal (.jobj o) ++ str2l "\n```", ?_⟩
    simp [str2l]
  have ht2 : pyStripChar '\x60' (str2l "```json\n" ++ serVal (.jobj o) ++ str2l "\n```") =
      str2l "json\n" ++ serVal (.jobj o) ++ ['\n'] := by
    unfold pyStripChar
    have hL : List.dropWhile (· = '\x60')
        (str2l "```json\n" ++ serVal (.jobj o) ++ str2l "\n```") =
        str2l "json\n" ++ serVal (.jobj o) ++ str2l "\n```" := by
      rw [show str2l "```json\n" ++ serVal (.jobj o) ++ str2l "\n```" =
          str2l "```" ++ ('j' :: (str2l "son\n" ++ serVal (.jobj o) ++ str2l "\n```")) from by
        simp [str2l]]
      rw [dropWhile_append_head _ _ 'j' _ (by decide)]
      rw [show List.dropWhile (fun x => x = '\x60') (str2l "```") = [] from rfl]
      simp [str2l]
    rw [hL]
    have hR : List.dropWhile (· = '\x60')
        ((str2l "json\n" ++ serVal (.jobj o) ++ str2l "\n```").reverse) =
        '\n' :: ((serVal (.jobj o)).reverse ++ (str2l "json\n").reverse) := by
      rw [show (str2l "json\n" ++ serVal (.jobj o) ++ str2l "\n```").reverse =
          str2l "```" ++ ('\n' :: ((serVal (.jobj o)).reverse ++ (str2l "json\n").reverse))
        from by simp [str2l, List.reverse_append]]
      rw [dropWhile_append_head _ _ '\n' _ (by decide)]
      rw [show List.dropWhile (fun x => x = '\x60') (str2l "```") = [] from rfl]
      simp
    rw [hR]
    simp [List.reverse_append, str2l]
  have hjson : str2l "json" <+:
      pyLower (str2l "json\n" ++ serVal (.jobj o) ++ ['\n']) := by
    refine ⟨pyLower ('\n' :: (serVal (.jobj o) ++ ['\n'])), ?_⟩
    rw [show str2l "json\n" ++ serVal (.jobj o) ++ ['\n'] =
        str2l "json" ++ ('\n' :: (serVal (.jobj o) ++ ['\n'])) from by simp [str2l]]
    rw [show pyLower (str2l "json" ++ ('\n' :: (serVal (.jobj o) ++ ['\n']))) =
        pyLower (str2l "json") ++ pyLower ('\n' :: (serVal (.jobj o) ++ ['\n'])) from by
      simp [pyLower]]
    rw [show pyLower (str2l "json") = str2l "json" from rfl]
  have hdrop : (str2l "json\n" ++ serVal (.jobj o) ++ ['\n']).drop 4 =
      '\n' :: (serVal (.jobj o) ++ ['\n']) := by
    simp [str2l]
  have hshead : ∃ c w, serVal (.jobj o) = c :: w ∧ pyWs c = false :=
    ⟨'\x7b', mid ++ ['\x7d'], hmid, by decide⟩
  have hslast : ∃ w d, serVal (.jobj o) = w ++ [d] ∧ pyWs d = false :=
    ⟨'\x7b' :: mid, '\x7d', by simp [hmid], by decide⟩
  have hstrip2 : pyStrip ('\n' :: (serVal (.jobj o) ++ ['\n'])) = serVal (.jobj o) := by
    have h := pyStrip_sandwich ['\n'] (serVal (.jobj o)) ['\n'] hshead hslast
    simp only [show ['\n'] ++ serVal (.jobj o) ++ ['\n'] =
        '\n' :: (serVal (.jobj o) ++ ['\n']) from by simp] at h
    rw [h]
    simp [List.dropWhile, pyWs]
  have hbs : braceSlice (serVal (.jobj o)) = serVal (.jobj o) := by
    rw [hmid]
    have h := braceSlice_extract [] mid [] (by simp) (by simp)
    simp only [List.nil_append, List.append_nil] at h
    rw [h, ← hmid]
    exact pyStrip_of_ends _ hshead hslast
  unfold _extract_json_segment fenceStrip
  rw [if_neg hne, hstrip]
  rw [if_pos (by simpa using hpre)]
  rw [ht2]
  rw [if_pos (by simpa using hjson)]
  rw [hdrop, hstrip2, hbs]

/-! ## The claims -/

deriving instance DecidableEq for ClaimAttributes
deriving instance DecidableEq for Except

/-- C6: for every empty or whitespace-only input string, `normalize_claim`
returns the fully-defaulted record (every field `"Unknown"`, explanation
`"Not provided"`), for every oracle — the oracle is never consulted. -/
theorem C6_empty_input_defaults (text : List Char) (gen : List Char → List Char)
    (h : pyStrip text = []) :
    normalize_claim gen text = Except.ok
      { loss_type := str2l "Unknown", severity := str2l "Unknown", asset := str2l "Unknown",
        estimated_loss := some (str2l "Unknown"), incident_date := some (str2l "Unknown"),
        location := some (str2l "Unknown"), confidence := some (str2l "Unknown"),
        explanation := some (str2l "Not provided") } := by
  simp only [normalize_claim]
  rw [if_pos h]

theorem C6_witness : pyStrip (str2l "  \n \t ") = [] ∧
    normalize_claim (fun _ => str2l "NEVER CALLED") (str2l "  \n \t ") = Except.ok
      { loss_type := str2l "Unknown", severity := str2l "Unknown", asset := str2l "Unknown",
        estimated_loss := some (str2l "Unknown"), incident_date := some (str2l "Unknown"),
        location := some (str2l "Unknown"), confidence := some (str2l "Unknown"),
        explanation := some (str2l "Not provided") } :=
  ⟨by decide, C6_empty_input_defaults (str2l "  \n \t ") (fun _ => str2l "NEVER CALLED")
    (by decide)⟩

/-- C8: whenever decoding the extracted segment fails, `_safe_parse_json`
returns the empty mapping (and, being a total function, never raises). -/
theorem C8_parse_failure_empty_mapping (raw : List Char)
    (h : jsonLoads (_extract_json_segment raw) = none) :
    _safe_parse_json raw = JVal.jobj JObj.nil := by
  unfold _safe_parse_json
  rw [h]

theorem C8_witness :
    jsonLoads (_extract_json_segment (str2l "definitely not json, no braces")) = none ∧
    _safe_parse_json (str2l "definitely not json, no braces") = JVal.jobj JObj.nil :=
  ⟨by decide, C8_parse_failure_empty_mapping (str2l "definitely not json, no braces") (by decide)⟩

/-- C2: a document whose truncated lower-cased text contains a
nonclaim-letter keyword and no claim keyword is classified `OTHER` with the
fixed rejection-letter reason, identically for every oracle (the oracle is
not consulted). -/
theorem C2_nonclaim_short_circuit (text : List Char) (gen : List Char → List Char)
    (hnc : anyKeyword DOC_NONCLAIM_LETTER_KEYWORDS
      (pyLower ((pyStrip text).take MAX_DOC_CHARS)) = true)
    (hcl : anyKeyword DOC_CLAIM_KEYWORDS
      (pyLower ((pyStrip text).take MAX_DOC_CHARS)) = false) :
    classify_document_type gen text = Except.ok (false, str2l "OTHER",
      str2l "Letter about document mismatch/rejection, not a full claim report.") := by
  have hne : pyStrip text ≠ [] := by
    intro h
    rw [h] at hnc
    exact absurd hnc (by decide)
  simp only [classify_document_type]
  rw [if_neg hne, if_pos ⟨hnc, hcl⟩]

theorem C2_witness :
    anyKeyword DOC_NONCLAIM_LETTER_KEYWORDS
      (pyLower ((pyStrip (str2l "Re: your claim rejected for mismatch")).take MAX_DOC_CHARS)) =
      true ∧
    anyKeyword DOC_CLAIM_KEYWORDS
      (pyLower ((pyStrip (str2l "Re: your claim rejected for mismatch")).take MAX_DOC_CHARS)) =
      false ∧
    classify_document_type (fun _ => str2l "\x7b\"type\": \"CLAIM\"\x7d")
      (str2l "Re: your claim rejected for mismatch") = Except.ok (false, str2l "OTHER",
      str2l "Letter about document mismatch/rejection, not a full claim report.") :=
  ⟨by decide, by decide,
    C2_nonclaim_short_circuit (str2l "Re: your claim rejected for mismatch")
      (fun _ => str2l "\x7b\"type\": \"CLAIM\"\x7d") (by decide) (by decide)⟩

/-- C10: the model-supplied `type` value is upper-cased and stripped before
the three-way validity check, so any case/whitespace variant of a valid
type is accepted as that type rather than normalized to `OTHER`. -/
theorem C10_type_case_normalization (raw : List Char) (m : JObj) (s : List Char)
    (hm : _safe_parse_json raw = JVal.jobj m)
    (hty : jget m (str2l "type") = some (JVal.jstr s))
    (hs : s ≠ [])
    (hvalid : pyStrip (pyUpper s) = str2l "CLAIM" ∨ pyStrip (pyUpper s) = str2l "POLICY" ∨
      pyStrip (pyUpper s) = str2l "OTHER") :
    typeField (_safe_parse_json raw) = Except.ok (pyStrip (pyUpper s)) ∧
    validNormType (pyStrip (pyUpper s)) = pyStrip (pyUpper s) := by
  constructor
  · rw [hm]
    simp [typeField, hty, truthy, hs]
  · unfold validNormType
    rw [if_pos hvalid]

theorem C10_witness :
    _safe_parse_json (str2l "\x7b\"type\": \" claim \"\x7d") =
      JVal.jobj (JObj.cons (str2l "type") (JVal.jstr (str2l " claim ")) JObj.nil) ∧
    jget (JObj.cons (str2l "type") (JVal.jstr (str2l " claim ")) JObj.nil) (str2l "type") =
      some (JVal.jstr (str2l " claim ")) ∧
    pyStrip (pyUpper (str2l " claim ")) = str2l "CLAIM" ∧
    typeField (_safe_parse_json (str2l "\x7b\"type\": \" claim \"\x7d")) =
      Except.ok (pyStrip (pyUpper (str2l " claim "))) ∧
    validNormType (pyStrip (pyUpper (str2l " claim "))) = pyStrip (pyUpper (str2l " claim ")) :=
  ⟨by decide, by decide, by decide,
    (C10_type_case_normalization (str2l "\x7b\"type\": \" claim \"\x7d")
      (JObj.cons (str2l "type") (JVal.jstr (str2l " claim ")) JObj.nil) (str2l " claim ")
      (by decide) (by decide) (by decide) (Or.inl (by decide))).1,
    (C10_type_case_normalization (str2l "\x7b\"type\": \" claim \"\x7d")
      (JObj.cons (str2l "type") (JVal.jstr (str2l " claim ")) JObj.nil) (str2l " claim ")
      (by decide) (by decide) (by decide) (Or.inl (by decide))).2⟩

/-- C5: a non-empty (after stripping) input with no short-path claim
keyword, which the short-text classifier rejects with (string) reason `r`,
yields exactly the sentinel record, whose explanation is the fixed prefix
followed by `r`. -/
theorem C5_sentinel_record (text r : List Char) (gen : List Char → List Char)
    (hne : pyStrip text ≠ [])
    (hkw : _looks_like_claim (pyStrip text) = false)
    (hcls : classify_short_text gen (pyStrip text) = Except.ok (false, JVal.jstr r)) :
    normalize_claim gen text = Except.ok
      { loss_type := str2l "Not a claim", severity := str2l "N/A", asset := str2l "N/A",
        estimated_loss := some (str2l "N/A"), incident_date := some (str2l "N/A"),
        location := some (str2l "N/A"), confidence := some (str2l "High"),
        explanation := some (str2l "The provided text is not an insurance claim. Reason: "
          ++ r) } := by
  simp only [normalize_claim]
  rw [if_neg hne, if_pos hkw, hcls]
  simp [sentinelRecord, pyStr]

theorem C5_witness :
    pyStrip (str2l "Hello, how are you today?") ≠ [] ∧
    _looks_like_claim (pyStrip (str2l "Hello, how are you today?")) = false ∧
    classify_short_text (fun _ => str2l "\x7b\"is_claim\": false, \"reason\": \"Conversational.\"\x7d")
      (pyStrip (str2l "Hello, how are you today?")) =
      Except.ok (false, JVal.jstr (str2l "Conversational.")) ∧
    normalize_claim (fun _ => str2l "\x7b\"is_claim\": false, \"reason\": \"Conversational.\"\x7d")
      (str2l "Hello, how are you today?") = Except.ok
      { loss_type := str2l "Not a claim", severity := str2l "N/A", asset := str2l "N/A",
        estimated_loss := some (str2l "N/A"), incident_date := some (str2l "N/A"),
        location := some (str2l "N/A"), confidence := some (str2l "High"),
        explanation := some (str2l "The provided text is not an insurance claim. Reason: "
          ++ str2l "Conversational.") } :=
  ⟨by decide, by decide, by decide,
    C5_sentinel_record (str2l "Hello, how are you today?") (str2l "Conversational.")
      (fun _ => str2l "\x7b\"is_claim\": false, \"reason\": \"Conversational.\"\x7d")
      (by decide) (by decide) (by decide)⟩

theorem applyOverrides_A (p : Bool) (dt0 r0 : List Char)
    (h : validNormType dt0 ≠ str2l "CLAIM") :
    applyOverrides true p dt0 r0 = (true, str2l "CLAIM",
      if r0 = [] then
        str2l "Contains clear incident and loss-related keywords (heuristic override)."
      else r0) := by
  have hmsg : str2l "Contains clear incident and loss-related keywords (heuristic override)." ≠
      ([] : List Char) := by decide
  by_cases hr : r0 = []
  · simp [applyOverrides, h, hr, hmsg]
  · simp [applyOverrides, h, hr]

theorem applyOverrides_B (r0 : List Char) :
    applyOverrides false true (str2l "CLAIM") r0 = (false, str2l "POLICY",
      if r0 = [] then
        str2l "Contains only policy wording/coverage keywords and no incident description."
      else r0) := by
  have hmsg : str2l "Contains only policy wording/coverage keywords and no incident description." ≠
      ([] : List Char) := by decide
  have hv : validNormType (str2l "CLAIM") = str2l "CLAIM" := by decide
  have hpc : str2l "POLICY" ≠ str2l "CLAIM" := by decide
  by_cases hr : r0 = []
  · simp [applyOverrides, hv, hr, hmsg, hpc]
  · simp [applyOverrides, hv, hr, hpc]

/-- C3: for a non-empty document whose truncated lower-cased text contains
a claim keyword, whenever the oracle output yields a parsed doc type other
than `CLAIM` (and a parsed reason), the result is forced to `CLAIM` with
`is_claim = true`; an absent or empty parsed reason becomes the fixed
heuristic-override string, a non-empty one is kept. -/
theorem C3_override_to_claim (text : List Char) (gen : List Char → List Char) (dt r : List Char)
    (hne : pyStrip text ≠ [])
    (hcl : anyKeyword DOC_CLAIM_KEYWORDS (pyLower ((pyStrip text).take MAX_DOC_CHARS)) = true)
    (hty : typeField (_safe_parse_json
      (gen (DOCUMENT_CLASSIFICATION_PROMPT_format ((pyStrip text).take MAX_DOC_CHARS)))) =
      Except.ok dt)
    (hrs : reasonField (_safe_parse_json
      (gen (DOCUMENT_CLASSIFICATION_PROMPT_format ((pyStrip text).take MAX_DOC_CHARS)))) =
      Except.ok r)
    (hnotclaim : dt ≠ str2l "CLAIM") :
    classify_document_type gen text = Except.ok (true, str2l "CLAIM",
      if r = [] then
        str2l "Contains clear incident and loss-related keywords (heuristic override)."
      else r) := by
  have hdt1 : validNormType dt ≠ str2l "CLAIM" := by
    unfold validNormType
    split
    · exact hnotclaim
    · decide
  have hsc : ¬ (anyKeyword DOC_NONCLAIM_LETTER_KEYWORDS
      (pyLower ((pyStrip text).take MAX_DOC_CHARS)) = true ∧
      anyKeyword DOC_CLAIM_KEYWORDS (pyLower ((pyStrip text).take MAX_DOC_CHARS)) = false) := by
    rintro ⟨-, h⟩
    rw [hcl] at h
    exact absurd h (by decide)
  simp only [classify_document_type]
  rw [if_neg hne, if_neg hsc]
  simp only [hty, hrs]
  have hover := applyOverrides_A
    (anyKeyword DOC_POLICY_KEYWORDS (pyLower ((pyStrip text).take MAX_DOC_CHARS))) dt r hdt1
  rw [hcl, hover]

theorem C3_witness :
    pyStrip (str2l "A fire broke out in the kitchen of the insured house.") ≠ [] ∧
    anyKeyword DOC_CLAIM_KEYWORDS (pyLower
      ((pyStrip (str2l "A fire broke out in the kitchen of the insured house.")).take
        MAX_DOC_CHARS)) = true ∧
    typeField (_safe_parse_json ((fun _ => str2l "\x7b\"type\": \"POLICY\"\x7d")
      (DOCUMENT_CLASSIFICATION_PROMPT_format
        ((pyStrip (str2l "A fire broke out in the kitchen of the insured house.")).take
          MAX_DOC_CHARS)))) = Except.ok (str2l "POLICY") ∧
    classify_document_type (fun _ => str2l "\x7b\"type\": \"POLICY\"\x7d")
      (str2l "A fire broke out in the kitchen of the insured house.") =
      Except.ok (true, str2l "CLAIM",
        if ([] : List Char) = [] then
          str2l "Contains clear incident and loss-related keywords (heuristic override)."
        else []) :=
  ⟨by decide, by decide, by decide,
    C3_override_to_claim (str2l "A fire broke out in the kitchen of the insured house.")
      (fun _ => str2l "\x7b\"type\": \"POLICY\"\x7d") (str2l "POLICY") []
      (by decide) (by decide) (by decide) (by decide) (by decide)⟩

/-- C4 counterexample: a document containing a policy keyword
(`premium payable`), no claim keyword, and also a nonclaim-letter keyword
(`kindly submit`), together with an oracle whose parsed doc type is CLAIM:
the rejection-letter short circuit fires first, so the result is `OTHER`,
not the `POLICY` the claim promises. -/
theorem C4_counterexample :
    anyKeyword DOC_POLICY_KEYWORDS (pyLower
      ((pyStrip (str2l "premium payable schedule. kindly submit the documents.")).take
        MAX_DOC_CHARS)) = true ∧
    anyKeyword DOC_CLAIM_KEYWORDS (pyLower
      ((pyStrip (str2l "premium payable schedule. kindly submit the documents.")).take
        MAX_DOC_CHARS)) = false ∧
    typeField (_safe_parse_json ((fun _ => str2l "\x7b\"type\": \"CLAIM\"\x7d")
      (DOCUMENT_CLASSIFICATION_PROMPT_format
        ((pyStrip (str2l "premium payable schedule. kindly submit the documents.")).take
          MAX_DOC_CHARS)))) = Except.ok (str2l "CLAIM") ∧
    classify_document_type (fun _ => str2l "\x7b\"type\": \"CLAIM\"\x7d")
      (str2l "premium payable schedule. kindly submit the documents.") =
      Except.ok (false, str2l "OTHER",
        str2l "Letter about document mismatch/rejection, not a full claim report.") ∧
    str2l "OTHER" ≠ str2l "POLICY" := by
  refine ⟨by decide, by decide, by decide, by decide, by decide⟩

/-- C4 (amended): for a non-empty document whose truncated lower-cased text
contains a policy keyword, no claim keyword, **and no nonclaim-letter
keyword** (so the rejection-letter short circuit does not fire), whenever
the oracle output's parsed doc type is `CLAIM` (with a parsed reason), the
result is downgraded to `POLICY` with `is_claim = false`; an absent or
empty parsed reason becomes the fixed policy-wording string. -/
theorem C4_downgrade_to_policy (text : List Char) (gen : List Char → List Char) (r : List Char)
    (hne : pyStrip text ≠ [])
    (hpol : anyKeyword DOC_POLICY_KEYWORDS
      (pyLower ((pyStrip text).take MAX_DOC_CHARS)) = true)
    (hclF : anyKeyword DOC_CLAIM_KEYWORDS
      (pyLower ((pyStrip text).take MAX_DOC_CHARS)) = false)
    (hncF : anyKeyword DOC_NONCLAIM_LETTER_KEYWORDS
      (pyLower ((pyStrip text).take MAX_DOC_CHARS)) = false)
    (hty : typeField (_safe_parse_json
      (gen (DOCUMENT_CLASSIFICATION_PROMPT_format ((pyStrip text).take MAX_DOC_CHARS)))) =
      Except.ok (str2l "CLAIM"))
    (hrs : reasonField (_safe_parse_json
      (gen (DOCUMENT_CLASSIFICATION_PROMPT_format ((pyStrip text).take MAX_DOC_CHARS)))) =
      Except.ok r) :
    classify_document_type gen text = Except.ok (false, str2l "POLICY",
      if r = [] then
        str2l "Contains only policy wording/coverage keywords and no incident description."
      else r) := by
  have hsc : ¬ (anyKeyword DOC_NONCLAIM_LETTER_KEYWORDS
      (pyLower ((pyStrip text).take MAX_DOC_CHARS)) = true ∧
      anyKeyword DOC_CLAIM_KEYWORDS (pyLower ((pyStrip text).take MAX_DOC_CHARS)) = false) := by
    rintro ⟨h, -⟩
    rw [hncF] at h
    exact absurd h (by decide)
  simp only [classify_document_type]
  rw [if_neg hne, if_neg hsc]
  simp only [hty, hrs]
  rw [hclF, hpol, applyOverrides_B r]

theorem C4_witness :
    pyStrip (str2l "premium payable and sum insured are listed below.") ≠ [] ∧
    anyKeyword DOC_POLICY_KEYWORDS (pyLower
      ((pyStrip (str2l "premium payable and sum insured are listed below.")).take
        MAX_DOC_CHARS)) = true ∧
    anyKeyword DOC_CLAIM_KEYWORDS (pyLower
      ((pyStrip (str2l "premium payable and sum insured are listed below.")).take
        MAX_DOC_CHARS)) = false ∧
    anyKeyword DOC_NONCLAIM_LETTER_KEYWORDS (pyLower
      ((pyStrip (str2l "premium payable and sum insured are listed below.")).take
        MAX_DOC_CHARS)) = false ∧
    classify_document_type (fun _ => str2l "\x7b\"type\": \"CLAIM\"\x7d")
      (str2l "premium payable and sum insured are listed below.") =
      Except.ok (false, str2l "POLICY",
        if ([] : List Char) = [] then
          str2l "Contains only policy wording/coverage keywords and no incident description."
        else []) :=
  ⟨by decide, by decide, by decide, by decide,
    C4_downgrade_to_policy (str2l "premium payable and sum insured are listed below.")
      (fun _ => str2l "\x7b\"type\": \"CLAIM\"\x7d") []
      (by decide) (by decide) (by decide) (by decide) (by decide) (by decide)⟩

theorem fieldStr_ok (m : JObj) (key dflt : List Char)
    (hkey : ∀ v, jget m key = some v → ∃ s, v = JVal.jstr s) :
    ∃ val, fieldStr m key dflt = Except.ok val ∧ (jget m key = none → val = dflt) := by
  cases hk : jget m key with
  | none => exact ⟨dflt, by simp [fieldStr, hk], fun _ => rfl⟩
  | some v =>
    obtain ⟨s, rfl⟩ := hkey v hk
    exact ⟨s, by simp [fieldStr, hk], fun h => Option.noConfusion h⟩

theorem fieldOptStr_ok (m : JObj) (key d : List Char)
    (hkey : ∀ v, jget m key = some v → ∃ s, v = JVal.jstr s) :
    ∃ val, fieldOptStr m key (some d) = Except.ok (some val) ∧
      (jget m key = none → val = d) := by
  cases hk : jget m key with
  | none => exact ⟨d, by simp [fieldOptStr, hk], fun _ => rfl⟩
  | some v =>
    obtain ⟨s, rfl⟩ := hkey v hk
    exact ⟨s, by simp [fieldOptStr, hk], fun h => Option.noConfusion h⟩

/-- C1 (amended): when every value the parsed mapping supplies at one of the
eight schema fields is a JSON string, the `ClaimAttributes` construction in
`normalize_claim` succeeds, every one of the eight fields carries a string
value, and each absent field receives its default.  (The unamended claim is
refuted by `C1_counterexample`: a `null` supplied for an `Optional[str]`
field is accepted and leaves that field without a string value; a
non-string, non-null value makes the construction raise.) -/
theorem C1_construction_amended (gen : List Char → List Char) (text : List Char) (m : JObj)
    (hne : pyStrip text ≠ [])
    (hkw : _looks_like_claim (pyStrip text) = true)
    (hm : _safe_parse_json (gen (PROMPT_TEMPLATE_format (pyStrip text))) = JVal.jobj m)
    (hfields : ∀ key ∈ [str2l "loss_type", str2l "severity", str2l "asset",
      str2l "estimated_loss", str2l "incident_date", str2l "location", str2l "confidence",
      str2l "explanation"], ∀ v, jget m key = some v → ∃ s, v = JVal.jstr s) :
    ∃ c : ClaimAttributes, normalize_claim gen text = Except.ok c ∧
      c.estimated_loss.isSome ∧ c.incident_date.isSome ∧ c.location.isSome ∧
      c.confidence.isSome ∧ c.explanation.isSome ∧
      (jget m (str2l "loss_type") = none → c.loss_type = str2l "Unknown") ∧
      (jget m (str2l "severity") = none → c.severity = str2l "Unknown") ∧
      (jget m (str2l "asset") = none → c.asset = str2l "Unknown") ∧
      (jget m (str2l "estimated_loss") = none → c.estimated_loss = some (str2l "Unknown")) ∧
      (jget m (str2l "incident_date") = none → c.incident_date = some (str2l "Unknown")) ∧
      (jget m (str2l "location") = none → c.location = some (str2l "Unknown")) ∧
      (jget m (str2l "confidence") = none → c.confidence = some (str2l "Unknown")) ∧
      (jget m (str2l "explanation") = none → c.explanation = some (str2l "Not provided")) := by
  obtain ⟨lt, hlt, hlt0⟩ := fieldStr_ok m (str2l "loss_type") (str2l "Unknown")
    (hfields _ (by simp))
  obtain ⟨sv, hsv, hsv0⟩ := fieldStr_ok m (str2l "severity") (str2l "Unknown")
    (hfields _ (by simp))
  obtain ⟨av, hassetv, hasset0⟩ := fieldStr_ok m (str2l "asset") (str2l "Unknown")
    (hfields _ (by simp))
  obtain ⟨el, hel, hel0⟩ := fieldOptStr_ok m (str2l "estimated_loss") (str2l "Unknown")
    (hfields _ (by simp))
  obtain ⟨idt, hidt, hidt0⟩ := fieldOptStr_ok m (str2l "incident_date") (str2l "Unknown")
    (hfields _ (by simp))
  obtain ⟨lo, hlo, hlo0⟩ := fieldOptStr_ok m (str2l "location") (str2l "Unknown")
    (hfields _ (by simp))
  obtain ⟨cf, hcf, hcf0⟩ := fieldOptStr_ok m (str2l "confidence") (str2l "Unknown")
    (hfields _ (by simp))
  obtain ⟨ex, hex, hex0⟩ := fieldOptStr_ok m (str2l "explanation") (str2l "Not provided")
    (hfields _ (by simp))
  refine ⟨⟨lt, sv, av, some el, some idt, some lo, some cf, some ex⟩, ?_, rfl, rfl, rfl, rfl,
    rfl, fun h => by simp [hlt0 h], fun h => by simp [hsv0 h], fun h => by simp [hasset0 h],
    fun h => by simp [hel0 h], fun h => by simp [hidt0 h], fun h => by simp [hlo0 h],
    fun h => by simp [hcf0 h], fun h => by simp [hex0 h]⟩
  simp only [normalize_claim]
  rw [if_neg hne, if_neg (by rw [hkw]; decide : ¬ _looks_like_claim (pyStrip text) = false)]
  unfold extractClaimRecord
  rw [hm]
  simp [mkClaimAttributes, hlt, hsv, hassetv, hel, hidt, hlo, hcf, hex]
  rfl

/-- C1 counterexample: the oracle replies with the well-formed mapping
`{"location": null}` for a claim-looking text; construction succeeds but
the resulting record's `location` field holds `None`, not a string — the
invariant "every one of the eight fields has a string value" fails. -/
theorem C1_counterexample :
    normalize_claim (fun _ => str2l "\x7b\"location\": null\x7d") (str2l "fire") =
      Except.ok
        { loss_type := str2l "Unknown", severity := str2l "Unknown", asset := str2l "Unknown",
          estimated_loss := some (str2l "Unknown"), incident_date := some (str2l "Unknown"),
          location := none, confidence := some (str2l "Unknown"),
          explanation := some (str2l "Not provided") } ∧
    (ClaimAttributes.location
      { loss_type := str2l "Unknown", severity := str2l "Unknown", asset := str2l "Unknown",
        estimated_loss := some (str2l "Unknown"), incident_date := some (str2l "Unknown"),
        location := none, confidence := some (str2l "Unknown"),
        explanation := some (str2l "Not provided") }).isSome = false := by
  refine ⟨by decide, rfl⟩

theorem C1_witness :
    pyStrip (str2l "fire in the kitchen") ≠ [] ∧
    _looks_like_claim (pyStrip (str2l "fire in the kitchen")) = true ∧
    _safe_parse_json ((fun _ => str2l "\x7b\"loss_type\": \"Fire\"\x7d")
      (PROMPT_TEMPLATE_format (pyStrip (str2l "fire in the kitchen")))) =
      JVal.jobj (JObj.cons (str2l "loss_type") (JVal.jstr (str2l "Fire")) JObj.nil) ∧
    (∃ c : ClaimAttributes,
      normalize_claim (fun _ => str2l "\x7b\"loss_type\": \"Fire\"\x7d")
        (str2l "fire in the kitchen") = Except.ok c ∧
      c.estimated_loss.isSome ∧ c.incident_date.isSome ∧ c.location.isSome ∧
      c.confidence.isSome ∧ c.explanation.isSome ∧
      (jget (JObj.cons (str2l "loss_type") (JVal.jstr (str2l "Fire")) JObj.nil)
        (str2l "loss_type") = none → c.loss_type = str2l "Unknown") ∧
      (jget (JObj.cons (str2l "loss_type") (JVal.jstr (str2l "Fire")) JObj.nil)
        (str2l "severity") = none → c.severity = str2l "Unknown") ∧
      (jget (JObj.cons (str2l "loss_type") (JVal.jstr (str2l "Fire")) JObj.nil)
        (str2l "asset") = none → c.asset = str2l "Unknown") ∧
      (jget (JObj.cons (str2l "loss_type") (JVal.jstr (str2l "Fire")) JObj.nil)
        (str2l "estimated_loss") = none → c.estimated_loss = some (str2l "Unknown")) ∧
      (jget (JObj.cons (str2l "loss_type") (JVal.jstr (str2l "Fire")) JObj.nil)
        (str2l "incident_date") = none → c.incident_date = some (str2l "Unknown")) ∧
      (jget (JObj.cons (str2l "loss_type") (JVal.jstr (str2l "Fire")) JObj.nil)
        (str2l "location") = none → c.location = some (str2l "Unknown")) ∧
      (jget (JObj.cons (str2l "loss_type") (JVal.jstr (str2l "Fire")) JObj.nil)
        (str2l "confidence") = none → c.confidence = some (str2l "Unknown")) ∧
      (jget (JObj.cons (str2l "loss_type") (JVal.jstr (str2l "Fire")) JObj.nil)
        (str2l "explanation") = none → c.explanation = some (str2l "Not provided"))) :=
  ⟨by decide, by decide, by decide,
    C1_construction_amended (fun _ => str2l "\x7b\"loss_type\": \"Fire\"\x7d")
      (str2l "fire in the kitchen")
      (JObj.cons (str2l "loss_type") (JVal.jstr (str2l "Fire")) JObj.nil)
      (by decide) (by decide) (by decide)
      (by
        intro key hkey v hv
        simp only [jget] at hv
        by_cases hk : str2l "loss_type" = key
        · rw [if_pos hk] at hv
          exact ⟨str2l "Fire", by injection hv with h; exact h.symm⟩
        · rw [if_neg hk] at hv
          exact Option.noConfusion hv)⟩

theorem findChar_spec (c : Char) : ∀ (l : List Char) (i : Nat), findChar l c = some i →
    i < l.length ∧ l.get? i = some c ∧ ∀ k < i, l.get? k ≠ some c := by
  intro l
  induction l with
  | nil => intro i h; exact Option.noConfusion h
  | cons a r ih =>
    intro i h
    by_cases ha : a = c
    · rw [findChar, if_pos ha] at h
      injection h with h
      subst h
      exact ⟨by simp, by simp [ha], fun k hk => absurd hk (by omega)⟩
    · rw [findChar, if_neg ha] at h
      cases hr : findChar r c with
      | none => rw [hr] at h; exact Option.noConfusion h
      | some i2 =>
        rw [hr] at h
        simp only [Option.map_some'] at h
        injection h with h
        subst h
        obtain ⟨h1, h2, h3⟩ := ih i2 hr
        refine ⟨by simp; omega, by simpa using h2, ?_⟩
        intro k hk
        cases k with
        | zero => simpa using fun hac => ha hac
        | succ k2 => simpa using h3 k2 (by omega)

theorem findChar_eq_none (l : List Char) (c : Char) : findChar l c = none ↔ c ∉ l := by
  induction l with
  | nil => simp [findChar]
  | cons a r ih =>
    by_cases ha : a = c
    · subst ha
      simp [findChar]
    · rw [findChar, if_neg ha]
      cases hr : findChar r c <;> simp_all [Ne.symm ha]

theorem rfindChar_spec (l : List Char) (c : Char) (j : Nat) (h : rfindChar l c = some j) :
    j < l.length ∧ l.get? j = some c ∧ ∀ k, j < k → l.get? k ≠ some c := by
  unfold rfindChar at h
  cases hi : findChar l.reverse c with
  | none => rw [hi] at h; exact Option.noConfusion h
  | some i =>
    rw [hi] at h
    simp only [Option.map_some'] at h
    injection h with h
    obtain ⟨h1, h2, h3⟩ := findChar_spec c l.reverse i hi
    rw [List.length_reverse] at h1
    have hlen : 0 < l.length := by omega
    have hj : j = l.length - 1 - i := h.symm
    have hjl : j < l.length := by omega
    have hget : l.get? j = some c := by
      rw [List.get?_reverse (by omega : i < l.length)] at h2
      rw [show l.length - 1 - i = j from by omega] at h2
      exact h2
    refine ⟨hjl, hget, ?_⟩
    intro k hk
    by_cases hkl : k < l.length
    · have hk2 : l.length - 1 - k < i := by omega
      have hne := h3 (l.length - 1 - k) hk2
      rw [List.get?_reverse (by omega : l.length - 1 - k < l.length)] at hne
      rwa [show l.length - 1 - (l.length - 1 - k) = k from by omega] at hne
    · rw [List.get?_eq_none.mpr (by omega)]
      simp

theorem findChar_some_of_mem (l : List Char) (c : Char) (h : c ∈ l) :
    ∃ i, findChar l c = some i := by
  cases hf : findChar l c with
  | none => exact absurd h ((findChar_eq_none l c).mp hf)
  | some i => exact ⟨i, rfl⟩

/-- C9 (amended): after the fence/whitespace stage, `_extract_json_segment`
returns the stripped inclusive slice from the first `{` (index `i`, with
the first-occurrence property spelled out) to the last `}` (index `j`,
last-occurrence property spelled out) when both braces occur; it returns
the whole stripped text when no `{` occurs (whether or not a `}` does);
and — contrary to the unamended claim — it returns the **empty string**
when a `{` occurs but no `}` does, because `end = rfind("}") + 1` is `0`
rather than `-1` and the guard `end != -1` never fires. -/
theorem C9_segment_cases (raw : List Char) (hne : raw ≠ []) :
    (('\x7b' ∉ fenceStrip raw) → _extract_json_segment raw = fenceStrip raw) ∧
    (∀ i j, findChar (fenceStrip raw) '\x7b' = some i →
      rfindChar (fenceStrip raw) '\x7d' = some j →
      _extract_json_segment raw = pyStrip (((fenceStrip raw).drop i).take (j + 1 - i)) ∧
      i < (fenceStrip raw).length ∧ (fenceStrip raw).get? i = some '\x7b' ∧
      (∀ k < i, (fenceStrip raw).get? k ≠ some '\x7b') ∧
      j < (fenceStrip raw).length ∧ (fenceStrip raw).get? j = some '\x7d' ∧
      (∀ k, j < k → (fenceStrip raw).get? k ≠ some '\x7d')) ∧
    (('\x7b' ∈ fenceStrip raw) → ('\x7d' ∉ fenceStrip raw) →
      _extract_json_segment raw = []) := by
  have hext : _extract_json_segment raw = braceSlice (fenceStrip raw) := by
    unfold _extract_json_segment
    rw [if_neg hne]
  refine ⟨?_, ?_, ?_⟩
  · intro hnb
    rw [hext]
    unfold braceSlice
    rw [(findChar_eq_none _ _).mpr hnb]
  · intro i j hf hr
    obtain ⟨hi1, hi2, hi3⟩ := findChar_spec '\x7b' (fenceStrip raw) i hf
    obtain ⟨hj1, hj2, hj3⟩ := rfindChar_spec (fenceStrip raw) '\x7d' j hr
    refine ⟨?_, hi1, hi2, hi3, hj1, hj2, hj3⟩
    rw [hext]
    unfold braceSlice
    rw [hf, hr]
  · intro hb hnc
    obtain ⟨i, hf⟩ := findChar_some_of_mem _ _ hb
    have hrn : rfindChar (fenceStrip raw) '\x7d' = none := by
      unfold rfindChar
      rw [(findChar_eq_none _ _).mpr (by simpa using hnc)]
      rfl
    rw [hext]
    unfold braceSlice
    rw [hf, hrn]
    simp [pyStrip]

theorem C9_counterexample :
    _extract_json_segment (str2l "a\x7bb") = [] ∧
    fenceStrip (str2l "a\x7bb") = str2l "a\x7bb" ∧
    pyStrip (str2l "a\x7bb") = str2l "a\x7bb" ∧
    ('\x7b' ∈ str2l "a\x7bb") ∧ ('\x7d' ∉ str2l "a\x7bb") ∧
    str2l "a\x7bb" ≠ ([] : List Char) := by
  refine ⟨by decide, by decide, by decide, by decide, by decide, by decide⟩

theorem C9_witness :
    (str2l "x \x7b\"a\"\x7d y" ≠ []) ∧
    (findChar (fenceStrip (str2l "x \x7b\"a\"\x7d y")) '\x7b' = some 2) ∧
    (rfindChar (fenceStrip (str2l "x \x7b\"a\"\x7d y")) '\x7d' = some 6) ∧
    (_extract_json_segment (str2l "x \x7b\"a\"\x7d y") =
      pyStrip (((fenceStrip (str2l "x \x7b\"a\"\x7d y")).drop 2).take (6 + 1 - 2))) :=
  ⟨by decide, by decide, by decide,
    ((C9_segment_cases (str2l "x \x7b\"a\"\x7d y") (by decide)).2.1 2 6
      (by decide) (by decide)).1⟩

/-- C7 (amended): the round-trip holds for an object embedded in
surrounding prose only when the prose before the object contains no
`\x7b` and no backtick and the prose after it contains no `\x7d`
(otherwise the brace slice grabs the wrong segment); under those
conditions, and likewise for the exact fenced form
"(three backticks)json\n … \n(three backticks)", `_safe_parse_json`
recovers exactly the embedded mapping. -/
theorem C7_roundtrip_amended (o : JObj) (p1 p2 : List Char)
    (hb : '\x7b' ∉ p1) (ht : '\x60' ∉ p1) (hc : '\x7d' ∉ p2) :
    _safe_parse_json (p1 ++ serVal (.jobj o) ++ p2) = JVal.jobj o ∧
    _safe_parse_json (str2l "```json\n" ++ serVal (.jobj o) ++ str2l "\n```") =
      JVal.jobj o := by
  constructor
  · unfold _safe_parse_json
    rw [extract_json_segment_plain o p1 p2 hb ht hc, jsonLoads_serVal]
  · unfold _safe_parse_json
    rw [extract_json_segment_fenced o, jsonLoads_serVal]

theorem C7_counterexample :
    (jsonLoads (serVal (.jobj (JObj.cons (str2l "a") (.jstr (str2l "b")) JObj.nil))) =
      some (.jobj (JObj.cons (str2l "a") (.jstr (str2l "b")) JObj.nil))) ∧
    (serVal (.jobj (JObj.cons (str2l "a") (.jstr (str2l "b")) JObj.nil)) ++ str2l "\x7d" =
      str2l "\x7b\"a\":\"b\"\x7d\x7d") ∧
    (_safe_parse_json
        (serVal (.jobj (JObj.cons (str2l "a") (.jstr (str2l "b")) JObj.nil)) ++ str2l "\x7d") =
      JVal.jobj JObj.nil) ∧
    (JVal.jobj (JObj.cons (str2l "a") (.jstr (str2l "b")) JObj.nil) ≠
      JVal.jobj JObj.nil) := by
  refine ⟨by decide, by decide, by decide, by decide⟩

theorem C7_witness :
    ('\x7b' ∉ str2l "here: ") ∧ ('\x60' ∉ str2l "here: ") ∧
    ('\x7d' ∉ str2l " done") ∧
    (_safe_parse_json (str2l "here: " ++
        serVal (.jobj (JObj.cons (str2l "a") (.jstr (str2l "b")) JObj.nil)) ++
        str2l " done") =
      JVal.jobj (JObj.cons (str2l "a") (.jstr (str2l "b")) JObj.nil)) ∧
    (_safe_parse_json (str2l "```json\n" ++
        serVal (.jobj (JObj.cons (str2l "a") (.jstr (str2l "b")) JObj.nil)) ++
        str2l "\n```") =
      JVal.jobj (JObj.cons (str2l "a") (.jstr (str2l "b")) JObj.nil)) := by
  have h := C7_roundtrip_amended (JObj.cons (str2l "a") (.jstr (str2l "b")) JObj.nil)
    (str2l "here: ") (str2l " done") (by decide) (by decide) (by decide)
  exact ⟨by decide, by decide, by decide, h.1, h.2⟩
